import Mathlib

set_option allowUnsafeReducibility true
attribute [semireducible] Rat.add Rat.mul Rat.sub Rat.div Rat.inv Rat.ofScientific

/-!
Shallow embedding of the revenue-leak evaluation engine
(`src/scripts/leak_signals_v1.py`) of the `he-revenue-leaks` repository.

Tables are ordered sequences of rows over named columns, as in the source
(pandas DataFrames).  A cell is a number, a string, or missing (NaN/NaT).
Python floats are modelled by `ℚ`; every numeric computation of the engine
stays far from double-precision boundaries at the values the theorems use.
Timestamps are modelled as numbers (an absolute time scale in seconds, so
`pd.Timedelta(days := d)` is `d * 86400`); `pd.to_datetime(·, errors :=
coerce)` keeps parseable values and turns everything else into NaT, which
the embedding renders as: a `num` cell stays, any other cell becomes `na`.
Fallible pandas/Python operations (object-dtype sums, `float(...)`,
selection of a missing column, boolean-mask alignment, `tz_localize` on an
already tz-aware timestamp) return `Except EngineErr`.
-/

/-- One cell of a table: a numeric value, a string, or missing (NaN/NaT). -/
inductive Cell where
  | num (x : ℚ)
  | str (s : String)
  | na
deriving DecidableEq, Repr

/-- Exceptions the Python engine can raise, by Python exception class. -/
inductive EngineErr where
  | typeErr (msg : String)
  | valueErr (msg : String)
  | keyErr (msg : String)
  | indexingErr (msg : String)
deriving DecidableEq, Repr

/-- A table: named columns and rows of cells (row `i`, column `j` is
`rows[i][j]`, the column named `cols[j]`). -/
structure Table where
  cols : List String
  rows : List (List Cell)
deriving DecidableEq, Repr

/-- The empty table, `pd.DataFrame()`. -/
def emptyTable : Table := ⟨[], []⟩

/-- Index of the first column with the given name. -/
def colIdx : List String → String → Option ℕ
  | [], _ => none
  | c :: cs, n => if c = n then some 0 else (colIdx cs n).map (· + 1)

/-- Is a cell missing? -/
def Cell.isNa : Cell → Bool
  | .na => true
  | _ => false

/-- The cells of a named column, if the column exists. -/
def Table.col (t : Table) (c : String) : Option (List Cell) :=
  (colIdx t.cols c).map fun i => t.rows.map fun r => r.getD i Cell.na

/-- The cells of a named column, or an empty series when the column is
absent: `df.get(c, pd.Series(dtype := float))`. -/
def Table.colD (t : Table) (c : String) : List Cell :=
  (t.col c).getD []

/-- `df.empty`: no rows (a well-formed frame with zero columns has no rows). -/
def Table.isEmptyT (t : Table) : Bool := t.rows.isEmpty

/-- A Python value produced by `Series.sum()` on a (possibly object-dtype)
column: a number or a string. -/
inductive PyVal where
  | q (x : ℚ)
  | s (t : String)
deriving DecidableEq, Repr

/-- `Series.sum()` with default `skipna`: missing cells are skipped; an
all-numeric series adds, an all-string series concatenates in order, and a
mix of numbers and strings raises `TypeError` (as in Python 3). The empty
series sums to `0`. -/
def pandasSum (cells : List Cell) : Except EngineErr PyVal :=
  let nums := cells.filterMap fun c => match c with | .num x => some x | _ => none
  let strs := cells.filterMap fun c => match c with | .str s => some s | _ => none
  match nums, strs with
  | _, [] => .ok (.q nums.sum)
  | [], _ :: _ => .ok (.s (String.join strs))
  | _ :: _, _ :: _ => .error (.typeErr "unsupported operand type for +: float and str")

/-- Sum of a list of already-summed values (`Series.sum()` over an object
column holding them), same typing rules as `pandasSum`. -/
def pandasSumVals (vals : List PyVal) : Except EngineErr PyVal :=
  let nums := vals.filterMap fun v => match v with | .q x => some x | _ => none
  let strs := vals.filterMap fun v => match v with | .s s => some s | _ => none
  match nums, strs with
  | _, [] => .ok (.q nums.sum)
  | [], _ :: _ => .ok (.s (String.join strs))
  | _ :: _, _ :: _ => .error (.typeErr "unsupported operand type for +: float and str")

/-- Digits of a numeral, as a natural number, if all characters are digits
and there is at least one. -/
def digitsVal : List Char → Option ℕ
  | [] => none
  | cs =>
    if cs.all (·.isDigit) then
      some (cs.foldl (fun acc c => 10 * acc + (c.toNat - 48)) 0)
    else none

/-- Plain decimal literals accepted by Python `float(...)`, restricted to
the forms `digits`, `digits.digits`, `digits.` and `.digits` (no exponents,
no spacing; enough for every input considered here — anything else is
rejected exactly as `float` rejects non-numeric tokens). -/
def parseFloatStr (s : String) : Option ℚ :=
  let core : List Char → Option ℚ := fun cs =>
    let intPart := cs.takeWhile (· ≠ '.')
    let rest := cs.dropWhile (· ≠ '.')
    match rest with
    | [] => (digitsVal intPart).map fun n => (n : ℚ)
    | _ :: fracPart =>
      if fracPart.any (· = '.') then none
      else
        match intPart, fracPart with
        | [], [] => none
        | _, _ =>
          if intPart.all (·.isDigit) && fracPart.all (·.isDigit) then
            let ip : ℕ := intPart.foldl (fun acc c => 10 * acc + (c.toNat - 48)) 0
            let fp : ℕ := fracPart.foldl (fun acc c => 10 * acc + (c.toNat - 48)) 0
            some ((ip : ℚ) + (fp : ℚ) / (10 ^ fracPart.length : ℕ))
          else none
  match s.toList with
  | '-' :: cs => (core cs).map Neg.neg
  | '+' :: cs => core cs
  | cs => core cs

/-- Python `float(v)` applied to the result of a series sum. -/
def pyFloat : PyVal → Except EngineErr ℚ
  | .q x => .ok x
  | .s t =>
    match parseFloatStr t with
    | some x => .ok x
    | none => .error (.valueErr ("could not convert string to float: " ++ t))

/-- `float(df.get(c, pd.Series(dtype := float)).sum())`. -/
def sumCol (t : Table) (c : String) : Except EngineErr ℚ := do
  pyFloat (← pandasSum (t.colD c))

/-- Python `round(x, 2)` (round half to even at the second decimal). -/
def pyRound2 (x : ℚ) : ℚ :=
  let y := x * 100
  let f : ℤ := ⌊y⌋
  let r := y - f
  let n : ℤ :=
    if r < 1/2 then f
    else if r > 1/2 then f + 1
    else if f % 2 = 0 then f else f + 1
  (n : ℚ) / 100

/-- `_safe_div`: quotient, or `0.0` when the denominator is zero. -/
def safeDiv (a b : ℚ) : ℚ := if b = 0 then 0 else a / b

/-- `_severity(loss, revenue_window)`. -/
def severity (loss revenueWindow : ℚ) : String :=
  let ratio := safeDiv loss (max revenueWindow 1)
  if ratio ≥ 8/100 ∨ loss ≥ 10000 then "high"
  else if ratio ≥ 3/100 ∨ loss ≥ 2500 then "medium"
  else "low"

/-- `_confidence(sample_size, completeness)` (every call in `evaluate`
passes the default `completeness = 1.0`). -/
def confidence (sampleSize : ℕ) (completeness : ℚ) : ℚ :=
  let sampleScore := min 1 (safeDiv (sampleSize : ℚ) 1000 + 1/5)
  pyRound2 (max (1/10) (min 1 (3/5 * completeness + 2/5 * sampleScore)))

/-- `pd.to_datetime(cell, errors := coerce)`: parseable timestamps stay,
anything else becomes NaT. -/
def coerceDt : Cell → Cell
  | .num x => .num x
  | _ => .na

/-- `_to_dt(df, col)`: coerce the column to datetimes in place when the
column exists and the frame is nonempty (this mutates the caller's frame;
the embedding returns the mutated table). -/
def toDt (t : Table) (c : String) : Table :=
  match colIdx t.cols c with
  | none => t
  | some i =>
    if t.rows.isEmpty then t
    else ⟨t.cols, t.rows.map fun r => r.set i (coerceDt (r.getD i Cell.na))⟩

/-- Does a row's cell at index `i` hold a timestamp within `[lo, hi)`? -/
def rowInRange (i : ℕ) (lo hi : ℚ) (r : List Cell) : Bool :=
  match r.getD i Cell.na with
  | .num x => decide (lo ≤ x) && decide (x < hi)
  | _ => false

/-- `df[(df[c] >= lo) & (df[c] < hi)] if c in df else pd.DataFrame()`:
the half-open window/baseline slice on a timestamp column; NaT rows drop
out, and a missing timestamp column yields the empty frame. -/
def sliceTable (t : Table) (c : String) (lo hi : ℚ) : Table :=
  match colIdx t.cols c with
  | none => emptyTable
  | some i => ⟨t.cols, t.rows.filter (rowInRange i lo hi)⟩

/-- `df[col].max()` guarded as in the anchor loop: `None` when the frame is
empty, the column is absent, or every value is NaT. -/
def colMax (t : Table) (c : String) : Option ℚ :=
  if t.rows.isEmpty then none
  else
    match t.col c with
    | none => none
    | some cells =>
      (cells.filterMap fun cl => match cl with | .num x => some x | _ => none).max?

/-- The anchor candidates: column maxima of `order_ts`, `refund_ts`,
`payment_ts` over the (coerced) orders, refunds and payments frames. -/
def anchorOf (orders refunds payments : Table) : Option ℚ :=
  ([colMax orders "order_ts", colMax refunds "refund_ts",
    colMax payments "payment_ts"].filterMap id).max?

/-- `pw[pw.get(status, pd.Series(dtype := str)).eq(v)] if not pw.empty
else pd.DataFrame()`: rows whose status cell equals the given string.  On a
nonempty frame without a status column the empty default mask cannot be
aligned and pandas raises `IndexingError`. -/
def statusFilter (t : Table) (v : String) : Except EngineErr Table :=
  if t.rows.isEmpty then .ok emptyTable
  else
    match colIdx t.cols "status" with
    | none => .error (.indexingErr "Unalignable boolean Series provided as indexer")
    | some i =>
      .ok ⟨t.cols, t.rows.filter fun r =>
        match r.getD i Cell.na with
        | .str s => s == v
        | _ => false⟩

/-- Keys in first-occurrence order with duplicates removed. -/
def dedupAux (seen : List Cell) : List Cell → List Cell
  | [] => []
  | k :: rest =>
    if seen.contains k then dedupAux seen rest
    else k :: dedupAux (k :: seen) rest

/-- Distinct cells of a list, first occurrences first. -/
def dedupCells (l : List Cell) : List Cell := dedupAux [] l

/-- Insert into a descending-sorted list of numbers. -/
def insertDescQ (x : ℚ) : List ℚ → List ℚ
  | [] => [x]
  | y :: ys => if y ≤ x then x :: y :: ys else y :: insertDescQ x ys

/-- Sort numbers in descending order (`sort_values(ascending := False)`). -/
def sortDescQ (l : List ℚ) : List ℚ := l.foldr insertDescQ []

/-- Insert into a descending-sorted list of strings. -/
def insertDescS (x : String) : List String → List String
  | [] => [x]
  | y :: ys => if !(decide (x < y)) then x :: y :: ys else y :: insertDescS x ys

/-- Sort strings in descending order. -/
def sortDescS (l : List String) : List String := l.foldr insertDescS []

/-- `.sort_values(ascending := False).head(5)` followed by `.sum()` and
`float(...)` on the per-group sums of heuristic 2: numeric sums sort and
add; an all-string object column sorts lexicographically and concatenates;
a mix of the two raises `TypeError` on comparison.  Ties at the fifth place
cannot change the resulting sum, so the sort order among equals is
irrelevant. -/
def topFiveSumFloat (vals : List PyVal) : Except EngineErr ℚ :=
  let nums := vals.filterMap fun v => match v with | .q x => some x | _ => none
  let strs := vals.filterMap fun v => match v with | .s s => some s | _ => none
  match nums, strs with
  | _, [] => .ok ((sortDescQ nums).take 5).sum
  | [], _ :: _ => pyFloat (.s (String.join ((sortDescS strs).take 5)))
  | _ :: _, _ :: _ =>
    .error (.typeErr "comparison not supported between instances of str and float")

/-- Per-group `Series.sum()` for a list of groups. -/
def sumsOfGroups : List (List Cell) → Except EngineErr (List PyVal)
  | [] => .ok []
  | g :: gs => do
    let v ← pandasSum g
    let vs ← sumsOfGroups gs
    .ok (v :: vs)

/-- `order_lines.merge(rw[[order_id, refund_amount]], on := order_id,
how := inner)`, projected to the `(sku_id, refund_amount)` cells of each
matched pair, in left-row-major order.  As in pandas `merge`, missing join
keys match each other. -/
def mergePairs (ol rw : Table) : List (Cell × Cell) :=
  let iLo := (colIdx ol.cols "order_id").getD 0
  let iSku := (colIdx ol.cols "sku_id").getD 0
  let iRo := (colIdx rw.cols "order_id").getD 0
  let iRa := (colIdx rw.cols "refund_amount").getD 0
  ol.rows.flatMap fun lr =>
    (rw.rows.filter fun rr => rr.getD iRo Cell.na == lr.getD iLo Cell.na).map
      fun rr => (lr.getD iSku Cell.na, rr.getD iRa Cell.na)

/-- Heuristic 2 (`sku_refund_concentration`, lines 142-148): join order
lines to window refunds on `order_id`, group by `sku_id` (`dropna :=
False`), sum `refund_amount` per SKU, and keep the five largest sums.
Selecting `rw[[order_id, refund_amount]]` raises `KeyError` when the
window refunds lack `refund_amount`; when the order-lines table has its own
`refund_amount` column the merge suffixes both copies and the later column
selection raises `KeyError`. -/
def heur2 (ol rw : Table) : Except EngineErr ℚ :=
  if ol.isEmptyT || rw.isEmptyT || !(ol.cols.contains "order_id")
      || !(rw.cols.contains "order_id") then
    .ok 0
  else if !(rw.cols.contains "refund_amount") then
    .error (.keyErr "refund_amount not in index")
  else if !(ol.cols.contains "sku_id") then
    .ok 0
  else if ol.cols.contains "refund_amount" then
    .error (.keyErr "Column not found: refund_amount")
  else do
    let pairs := mergePairs ol rw
    let keys := dedupCells (pairs.map (·.1))
    let groups := keys.map fun k => (pairs.filter fun pr => pr.1 == k).map (·.2)
    let sums ← sumsOfGroups groups
    topFiveSumFloat sums

/-- Per-coupon aggregates of heuristic 4 (line 159-160): for every group
key (a `coupon_code` cell, missing codes forming their own group), `uses`
counts the non-missing codes of the group, `users` counts its distinct
non-missing customers, and the group's `discount_value` sum is kept
exactly when `uses / max(users, 1) > 3`. -/
def heur4Vals (triples : List (Cell × Cell × Cell)) :
    List Cell → Except EngineErr (List PyVal)
  | [] => .ok []
  | k :: ks => do
    let grp := triples.filter fun tr => tr.1 == k
    let uses : ℕ := (grp.filter fun tr => !(tr.1.isNa)).length
    let users : ℕ :=
      (dedupCells ((grp.map fun tr => tr.2.1).filter fun c => !(c.isNa))).length
    let v ← pandasSum (grp.map fun tr => tr.2.2)
    let rest ← heur4Vals triples ks
    .ok (if (uses : ℚ) / ((max users 1 : ℕ) : ℚ) > 3 then v :: rest else rest)

/-- Heuristic 4 (`coupon_abuse`, lines 156-161): over the whole discounts
table (no window slicing), group by `coupon_code` and sum `discount_value`
over the codes redeemed more than three times per distinct customer;
zero when the table is empty or lacks any of the three required columns. -/
def heur4 (d : Table) : Except EngineErr ℚ :=
  if d.isEmptyT then .ok 0
  else if !(d.cols.contains "coupon_code" && d.cols.contains "customer_id"
      && d.cols.contains "discount_value") then
    .ok 0
  else do
    let iC := (colIdx d.cols "coupon_code").getD 0
    let iU := (colIdx d.cols "customer_id").getD 0
    let iV := (colIdx d.cols "discount_value").getD 0
    let triples := d.rows.map fun r =>
      (r.getD iC Cell.na, r.getD iU Cell.na, r.getD iV Cell.na)
    let vals ← heur4Vals triples (dedupCells (triples.map (·.1)))
    pyFloat (← pandasSumVals vals)

/-- `repeaters` of heuristic 10: the number of customers with at least one
order in the slice, i.e. the number of `groupby(customer_id)` groups
(missing customers are dropped, as `groupby` defaults to `dropna`). -/
def repeaters (t : Table) : ℕ :=
  match colIdx t.cols "customer_id" with
  | none => 0
  | some i =>
    (dedupCells ((t.rows.map fun r => r.getD i Cell.na).filter fun c => !(c.isNa))).length

/-- One emitted leak signal (the `LeakSignal` dataclass). -/
structure LeakSignal where
  signal_id : String
  estimated_loss_usd : ℚ
  severity : String
  confidence : ℚ
  reason_code : String
  metrics : List (String × ℚ)
deriving DecidableEq, Repr

/-- The report returned by `evaluate`: window bounds, summary, signals. -/
structure Report where
  window_start : ℚ
  window_end : ℚ
  baseline_start : ℚ
  baseline_end : ℚ
  summary_signals : ℕ
  total_estimated_loss_usd : ℚ
  net_revenue_window : ℚ
  signals : List LeakSignal
deriving DecidableEq, Repr

/-- The scalar aggregates of lines 107-134 and the raw losses of the two
group-by heuristics, extracted in the source's order of evaluation. -/
structure Aggs where
  netW : ℚ
  netB : ℚ
  grossW : ℚ
  grossB : ℚ
  refundW : ℚ
  refundB : ℚ
  discountW : ℚ
  discountB : ℚ
  shippingW : ℚ
  shippingB : ℚ
  cogsW : ℚ
  cogsB : ℚ
  failAmtW : ℚ
  dispAmtW : ℚ
  loss2raw : ℚ
  loss4raw : ℚ
  owLen : ℕ
  obLen : ℕ
  rwLen : ℕ
  pwLen : ℕ
  pbLen : ℕ
  twLen : ℕ
  tbLen : ℕ
  olLen : ℕ
  dLen : ℕ
  failWLen : ℕ
  failBLen : ℕ
  dispWLen : ℕ
  dispBLen : ℕ
  custBoth : Bool
  repW : ℕ
  repB : ℕ
deriving DecidableEq, Repr

/-- All fallible scalar extraction of `evaluate`, in the exact source order
(so the first failing conversion determines the raised exception, as in
Python's sequential execution of lines 107-176). -/
def computeAggs (ow ob rw rb pw pb tw tb ol d : Table) : Except EngineErr Aggs := do
  let netW ← sumCol ow "net_revenue"
  let netB ← sumCol ob "net_revenue"
  let grossW ← sumCol ow "gross_revenue"
  let refundW ← sumCol rw "refund_amount"
  let refundB ← sumCol rb "refund_amount"
  let discountW ← sumCol ow "discount_amount"
  let discountB ← sumCol ob "discount_amount"
  let grossB ← sumCol ob "gross_revenue"
  let shippingW ← sumCol ow "shipping_cost"
  let shippingB ← sumCol ob "shipping_cost"
  let failW ← statusFilter pw "failed"
  let failB ← statusFilter pb "failed"
  let cogsW ← sumCol ow "cogs_total"
  let cogsB ← sumCol ob "cogs_total"
  let loss2 ← heur2 ol rw
  let loss4 ← heur4 d
  let failAmtW ← if failW.isEmptyT then pure (0 : ℚ) else sumCol failW "amount"
  let dispW ← statusFilter pw "disputed"
  let dispB ← statusFilter pb "disputed"
  let dispAmtW ← sumCol dispW "dispute_amount"
  .ok
    { netW := netW, netB := netB, grossW := grossW, grossB := grossB,
      refundW := refundW, refundB := refundB,
      discountW := discountW, discountB := discountB,
      shippingW := shippingW, shippingB := shippingB,
      cogsW := cogsW, cogsB := cogsB,
      failAmtW := failAmtW, dispAmtW := dispAmtW,
      loss2raw := loss2, loss4raw := loss4,
      owLen := ow.rows.length, obLen := ob.rows.length,
      rwLen := rw.rows.length,
      pwLen := pw.rows.length, pbLen := pb.rows.length,
      twLen := tw.rows.length, tbLen := tb.rows.length,
      olLen := ol.rows.length, dLen := d.rows.length,
      failWLen := failW.rows.length, failBLen := failB.rows.length,
      dispWLen := dispW.rows.length, dispBLen := dispB.rows.length,
      custBoth := ow.cols.contains "customer_id" && ob.cols.contains "customer_id",
      repW := repeaters ow, repB := repeaters ob }

/-- The ten signals of lines 136-201, in declaration order, as pure
functions of the aggregates. -/
def mkSignals (A : Aggs) : List LeakSignal :=
  let refundRateW := safeDiv A.refundW A.netW
  let refundRateB := safeDiv A.refundB A.netB
  let discountRateW := safeDiv A.discountW A.grossW
  let discountRateB := safeDiv A.discountB A.grossB
  let shippingRatioW := safeDiv A.shippingW A.netW
  let shippingRatioB := safeDiv A.shippingB A.netB
  let failRateW := safeDiv (A.failWLen : ℚ) (A.pwLen : ℚ)
  let failRateB := safeDiv (A.failBLen : ℚ) (A.pbLen : ℚ)
  let marginW := safeDiv (A.netW - A.cogsW - A.shippingW) A.netW
  let marginB := safeDiv (A.netB - A.cogsB - A.shippingB) A.netB
  let loss1 :=
    if refundRateW > refundRateB * (6/5) ∧ A.refundW ≥ 500 then
      max 0 (A.refundW - refundRateB * A.netW)
    else 0
  let loss3 :=
    if discountRateW > discountRateB + 3/100 then
      max 0 ((discountRateW - max discountRateB (1/10)) * A.grossW)
    else 0
  let loss5 :=
    if shippingRatioW > shippingRatioB * (23/20) then
      max 0 (A.shippingW - shippingRatioB * A.netW)
    else 0
  let loss6 := if failRateW > failRateB + 1/50 then A.failAmtW else 0
  let loss7 :=
    if (A.dispWLen : ℚ) > (A.dispBLen : ℚ) * (6/5) then
      A.dispAmtW + (A.dispWLen : ℚ) * 15
    else 0
  let loss8 :=
    if marginW < marginB - 3/100 then max 0 ((marginB - marginW) * A.netW) else 0
  let loss9 :=
    if (A.twLen : ℚ) > (A.tbLen : ℚ) * (6/5) ∧ A.refundW > A.refundB * (11/10) then
      max 0 (A.refundW - A.refundB * (28/84))
    else 0
  let aovW := safeDiv A.netW ((max A.owLen 1 : ℕ) : ℚ)
  let loss10 :=
    if A.custBoth ∧ A.repB > A.repW then ((A.repB : ℚ) - (A.repW : ℚ)) * aovW else 0
  [⟨"refund_spike", pyRound2 loss1, severity loss1 A.netW, confidence A.rwLen 1,
      "refund_rate_20pct_above_baseline",
      [("refund_rate_w", refundRateW), ("refund_rate_b", refundRateB)]⟩,
    ⟨"sku_refund_concentration", pyRound2 A.loss2raw, severity A.loss2raw A.netW,
      confidence A.olLen 1, "top_sku_refund_concentration", []⟩,
    ⟨"discount_overuse", pyRound2 loss3, severity loss3 A.netW,
      confidence A.owLen 1, "discount_rate_above_baseline_plus_3pp",
      [("discount_rate_w", discountRateW), ("discount_rate_b", discountRateB)]⟩,
    ⟨"coupon_abuse", pyRound2 A.loss4raw, severity A.loss4raw A.netW,
      confidence A.dLen 1, "high_redemption_per_user", []⟩,
    ⟨"shipping_cost_creep", pyRound2 loss5, severity loss5 A.netW,
      confidence A.owLen 1, "shipping_ratio_15pct_above_baseline",
      [("shipping_ratio_w", shippingRatioW), ("shipping_ratio_b", shippingRatioB)]⟩,
    ⟨"failed_payment_recovery", pyRound2 loss6, severity loss6 A.netW,
      confidence A.pwLen 1, "failed_payment_rate_above_baseline_plus_2pp",
      [("fail_rate_w", failRateW), ("fail_rate_b", failRateB)]⟩,
    ⟨"dispute_chargeback", pyRound2 loss7, severity loss7 A.netW,
      confidence A.pwLen 1, "dispute_count_20pct_above_baseline", []⟩,
    ⟨"margin_compression", pyRound2 loss8, severity loss8 A.netW,
      confidence A.owLen 1, "margin_drop_3pp",
      [("margin_w", marginW), ("margin_b", marginB)]⟩,
    ⟨"support_linked_refunds", pyRound2 loss9, severity loss9 A.netW,
      confidence A.twLen 1, "support_growth_with_refund_growth",
      [("tickets_w", (A.twLen : ℚ)), ("tickets_b", (A.tbLen : ℚ))]⟩,
    ⟨"repeat_customer_churn", pyRound2 loss10, severity loss10 A.netW,
      confidence A.owLen 1, "repeat_customer_decline", []⟩]

/-- Report assembly (lines 203-217). -/
def mkReport (wStart anchor bStart bEnd : ℚ) (A : Aggs) : Report :=
  let signals := mkSignals A
  ⟨wStart, anchor, bStart, bEnd, signals.length,
    pyRound2 ((signals.map (·.estimated_loss_usd)).sum),
    pyRound2 A.netW, signals⟩

/-- The evaluation engine `evaluate(orders, order_lines, refunds, payments,
tickets, discounts)`.  `now` is the ambient clock read by
`pd.Timestamp.utcnow()`; when no anchor candidate exists the source calls
`.tz_localize(UTC)` on the tz-aware result, which raises `TypeError`
before the clock value can influence anything observable. -/
def evaluate (orders order_lines refunds payments tickets discounts : Table)
    (now : ℚ) : Except EngineErr Report :=
  let o := toDt orders "order_ts"
  let rf := toDt refunds "refund_ts"
  let p := toDt payments "payment_ts"
  let tk := toDt tickets "created_ts"
  match anchorOf o rf p with
  | none =>
    let _utcnow := now
    .error (.typeErr "Cannot localize tz-aware Timestamp, use tz_convert for conversions")
  | some anchor =>
    let wStart := anchor - 28 * 86400
    let bStart := anchor - 112 * 86400
    let bEnd := wStart
    let ow := sliceTable o "order_ts" wStart anchor
    let ob := sliceTable o "order_ts" bStart bEnd
    let rw := sliceTable rf "refund_ts" wStart anchor
    let rb := sliceTable rf "refund_ts" bStart bEnd
    let pw := sliceTable p "payment_ts" wStart anchor
    let pb := sliceTable p "payment_ts" bStart bEnd
    let tw := sliceTable tk "created_ts" wStart anchor
    let tb := sliceTable tk "created_ts" bStart bEnd
    (computeAggs ow ob rw rb pw pb tw tb order_lines discounts).map
      (mkReport wStart anchor bStart bEnd)

/-- The argument tables as the caller observes them after a call to
`evaluate` (returned or raised): `_to_dt` (line 45-48) assigns the coerced
timestamp column back onto the caller's frame objects at lines 77-80,
mutating them in place; the order-lines and discounts arguments are never
written to. -/
def evaluateArgsAfter (orders order_lines refunds payments tickets discounts : Table) :
    Table × Table × Table × Table × Table × Table :=
  (toDt orders "order_ts", order_lines, toDt refunds "refund_ts",
    toDt payments "payment_ts", toDt tickets "created_ts", discounts)

/-- A rendering of one signal, as the API layer would serialize it. -/
def serializeSignal (s : LeakSignal) : String :=
  s.signal_id ++ "," ++ toString s.estimated_loss_usd ++ "," ++ s.severity ++ ","
    ++ toString s.confidence ++ "," ++ s.reason_code ++ ","
    ++ String.join (s.metrics.map fun m => m.1 ++ "=" ++ toString m.2 ++ ";")

/-- A rendering of a whole report; equal reports render to equal bytes. -/
def serializeReport (r : Report) : String :=
  toString r.window_start ++ "|" ++ toString r.window_end ++ "|"
    ++ toString r.baseline_start ++ "|" ++ toString r.baseline_end ++ "|"
    ++ toString r.summary_signals ++ "|" ++ toString r.total_estimated_loss_usd ++ "|"
    ++ toString r.net_revenue_window ++ "|"
    ++ String.join (r.signals.map serializeSignal)

/-- The report inside an `ok` outcome (a placeholder report otherwise). -/
def reportOf (e : Except EngineErr Report) : Report :=
  match e with
  | .ok r => r
  | .error _ => ⟨0, 0, 0, 0, 0, 0, 0, []⟩

/-- The timestamp cell the slicer consults for a row: the cell of the
row's timestamp column (missing when the column is absent). -/
def rowTs (t : Table) (c : String) (row : List Cell) : Cell :=
  match colIdx t.cols c with
  | none => Cell.na
  | some i => row.getD i Cell.na

/-- The monetary columns of the six input tables (spec section 3). -/
def monetaryCols : List String :=
  ["gross_revenue", "discount_amount", "net_revenue", "shipping_cost",
    "cogs_total", "refund_amount", "amount", "dispute_amount", "discount_value"]

/-- A monetary cell is clean when it is missing or a non-negative number. -/
def cellClean : Cell → Bool
  | .num x => decide (0 ≤ x)
  | .str _ => false
  | .na => true

/-- Every cell of every monetary column of the table is clean. -/
def Table.monClean (t : Table) : Bool :=
  monetaryCols.all fun c => (t.colD c).all cellClean

theorem colIdx_eq_none_iff {cs : List String} {n : String} :
    colIdx cs n = none ↔ n ∉ cs := by
  induction cs with
  | nil => simp [colIdx]
  | cons c cs ih =>
    by_cases h : c = n
    · subst h; simp [colIdx]
    · simp only [colIdx, if_neg h, Option.map_eq_none', ih, List.mem_cons]
      constructor
      · rintro hn (rfl | hm)
        · exact h rfl
        · exact hn hm
      · intro hn hm
        exact hn (Or.inr hm)

theorem colIdx_isSome_iff {cs : List String} {n : String} :
    (colIdx cs n).isSome ↔ n ∈ cs := by
  rw [Option.isSome_iff_ne_none, Ne, colIdx_eq_none_iff, not_not]

theorem colIdx_getD {cs : List String} {n : String} {i : ℕ}
    (h : colIdx cs n = some i) : cs.getD i "" = n := by
  induction cs generalizing i with
  | nil => simp [colIdx] at h
  | cons c cs ih =>
    by_cases hc : c = n
    · subst hc
      simp [colIdx] at h
      subst h; rfl
    · simp only [colIdx, if_neg hc] at h
      rcases Option.map_eq_some'.mp h with ⟨j, hj, hji⟩
      subst hji
      simpa using ih hj

theorem colIdx_ne {cs : List String} {a b : String} {i j : ℕ}
    (ha : colIdx cs a = some i) (hb : colIdx cs b = some j) (hab : a ≠ b) :
    i ≠ j := by
  intro hij
  subst hij
  exact hab ((colIdx_getD ha).symm.trans (colIdx_getD hb))

theorem getD_set_self (r : List Cell) (i : ℕ) (v : Cell) :
    (r.set i v).getD i Cell.na = if i < r.length then v else Cell.na := by
  induction r generalizing i with
  | nil => simp [List.getD]
  | cons x xs ih =>
    cases i with
    | zero => simp [List.getD]
    | succ n =>
      simp only [List.set, List.getD_cons_succ, ih, List.length_cons]
      simp [Nat.succ_lt_succ_iff]

theorem getD_set_ne (r : List Cell) {i j : ℕ} (v : Cell) (h : i ≠ j) :
    (r.set i v).getD j Cell.na = r.getD j Cell.na := by
  induction r generalizing i j with
  | nil => simp
  | cons x xs ih =>
    cases i with
    | zero =>
      cases j with
      | zero => exact absurd rfl h
      | succ m => simp [List.getD]
    | succ n =>
      cases j with
      | zero => simp [List.getD]
      | succ m => simpa [List.getD] using ih (by omega)

theorem coerceDt_idem (c : Cell) : coerceDt (coerceDt c) = coerceDt c := by
  cases c <;> rfl

theorem getD_set_coerce (r : List Cell) (i : ℕ) :
    (r.set i (coerceDt (r.getD i Cell.na))).getD i Cell.na
      = coerceDt (r.getD i Cell.na) := by
  rw [getD_set_self]
  split
  · rfl
  · rw [List.getD_eq_default _ _ (by omega)]
    rfl

theorem toDt_cols (t : Table) (c : String) : (toDt t c).cols = t.cols := by
  unfold toDt
  split
  · rfl
  · split <;> rfl

theorem toDt_rows_length (t : Table) (c : String) :
    (toDt t c).rows.length = t.rows.length := by
  unfold toDt
  split
  · rfl
  · split
    · rfl
    · simp

theorem toDt_col_ne (t : Table) {c c2 : String} (h : c2 ≠ c) :
    (toDt t c).col c2 = t.col c2 := by
  unfold toDt
  split
  next => rfl
  next i hi =>
    split
    next => rfl
    next =>
      unfold Table.col
      cases hj : colIdx t.cols c2 with
      | none => simp [hj]
      | some j =>
        have hij : i ≠ j := colIdx_ne hi hj (Ne.symm h)
        simp only [hj, Option.map_some', Option.some.injEq, List.map_map]
        refine List.map_congr_left fun r _ => ?_
        exact getD_set_ne r _ hij

theorem toDt_col_self (t : Table) (c : String) :
    (toDt t c).col c = (t.col c).map (List.map coerceDt) := by
  unfold toDt
  split
  next hnone => simp [Table.col, hnone]
  next i hi =>
    split
    next he =>
      have : t.rows = [] := List.isEmpty_iff.mp he
      simp [Table.col, hi, this]
    next =>
      unfold Table.col
      simp only [hi, Option.map_some', Option.some.injEq, List.map_map]
      refine List.map_congr_left fun r _ => ?_
      exact getD_set_coerce r i

theorem toDt_colD_ne (t : Table) {c c2 : String} (h : c2 ≠ c) :
    (toDt t c).colD c2 = t.colD c2 := by
  unfold Table.colD
  rw [toDt_col_ne t h]

theorem toDt_idem (t : Table) (c : String) : toDt (toDt t c) c = toDt t c := by
  rcases hcx : colIdx t.cols c with _ | i
  · have h1 : toDt t c = t := by unfold toDt; rw [hcx]
    rw [h1, h1]
  · by_cases he : t.rows.isEmpty
    · have h1 : toDt t c = t := by unfold toDt; rw [hcx]; simp [he]
      rw [h1, h1]
    · have h1 : toDt t c
          = ⟨t.cols, t.rows.map fun r => r.set i (coerceDt (r.getD i Cell.na))⟩ := by
        unfold toDt; rw [hcx]; simp [he]
      rw [h1]
      unfold toDt
      simp only [hcx]
      have hne : (t.rows.map fun r =>
          r.set i (coerceDt (r.getD i Cell.na))).isEmpty = false := by
        cases h2 : t.rows with
        | nil => rw [h2] at he; simp at he
        | cons a l => simp [h2]
      rw [hne]
      simp only [if_neg Bool.false_ne_true, List.map_map]
      congr 1
      refine List.map_congr_left fun r _ => ?_
      simp only [Function.comp_apply]
      rw [getD_set_coerce, coerceDt_idem, List.set_set]

theorem emptyTable_colD (c : String) : emptyTable.colD c = [] := rfl

theorem sliceTable_eq_none {t : Table} {c : String} (lo hi : ℚ)
    (hcx : colIdx t.cols c = none) : sliceTable t c lo hi = emptyTable := by
  unfold sliceTable; rw [hcx]

theorem sliceTable_eq_some {t : Table} {c : String} (lo hi : ℚ) {i : ℕ}
    (hcx : colIdx t.cols c = some i) :
    sliceTable t c lo hi = ⟨t.cols, t.rows.filter (rowInRange i lo hi)⟩ := by
  unfold sliceTable; rw [hcx]

theorem sliceTable_mem {t : Table} {c : String} {lo hi : ℚ} {row : List Cell} :
    row ∈ (sliceTable t c lo hi).rows ↔
      row ∈ t.rows ∧ c ∈ t.cols ∧
        ∃ x, rowTs t c row = .num x ∧ lo ≤ x ∧ x < hi := by
  cases hcx : colIdx t.cols c with
  | none =>
    have hnc : c ∉ t.cols := colIdx_eq_none_iff.mp hcx
    rw [sliceTable_eq_none lo hi hcx]
    simp [emptyTable, hnc]
  | some i =>
    have hc : c ∈ t.cols := colIdx_isSome_iff.mp (by rw [hcx]; rfl)
    rw [sliceTable_eq_some lo hi hcx]
    simp only [List.mem_filter, hc, true_and, rowTs, hcx]
    constructor
    · rintro ⟨hr, hb⟩
      refine ⟨hr, ?_⟩
      unfold rowInRange at hb
      cases hcell : row.getD i Cell.na with
      | num x =>
        rw [hcell] at hb
        simp only [Bool.and_eq_true, decide_eq_true_eq] at hb
        exact ⟨x, rfl, hb.1, hb.2⟩
      | str s => rw [hcell] at hb; simp at hb
      | na => rw [hcell] at hb; simp at hb
    · rintro ⟨hr, x, hx, h1, h2⟩
      refine ⟨hr, ?_⟩
      unfold rowInRange
      rw [hx]
      simp [h1, h2]

theorem mk_colD_none {cols : List String} {rows : List (List Cell)} {c2 : String}
    (hj : colIdx cols c2 = none) : (Table.mk cols rows).colD c2 = [] := by
  unfold Table.colD Table.col
  simp [hj]

theorem mk_colD_some {cols : List String} {rows : List (List Cell)} {c2 : String}
    {j : ℕ} (hj : colIdx cols c2 = some j) :
    (Table.mk cols rows).colD c2 = rows.map fun r => r.getD j Cell.na := by
  unfold Table.colD Table.col
  simp [hj]

theorem filter_table_colD_subset {cols : List String} {rows : List (List Cell)}
    {p : List Cell → Bool} {c2 : String} {cell : Cell}
    (h : cell ∈ (Table.mk cols (rows.filter p)).colD c2) :
    cell ∈ (Table.mk cols rows).colD c2 := by
  cases hj : colIdx cols c2 with
  | none =>
    rw [mk_colD_none hj] at h
    exact absurd h (List.not_mem_nil _)
  | some j =>
    rw [mk_colD_some hj] at h
    rw [mk_colD_some hj]
    simp only [List.mem_map] at h ⊢
    rcases h with ⟨r, hr, rfl⟩
    exact ⟨r, (List.mem_filter.mp hr).1, rfl⟩

theorem sliceTable_colD_subset {t : Table} {c : String} {lo hi : ℚ}
    {c2 : String} {cell : Cell}
    (h : cell ∈ (sliceTable t c lo hi).colD c2) : cell ∈ t.colD c2 := by
  cases hcx : colIdx t.cols c with
  | none =>
    rw [sliceTable_eq_none lo hi hcx, emptyTable_colD] at h
    exact absurd h (List.not_mem_nil _)
  | some i =>
    rw [sliceTable_eq_some lo hi hcx] at h
    exact filter_table_colD_subset h

theorem statusFilter_ok_colD_subset {t t2 : Table} {v : String}
    (h : statusFilter t v = .ok t2) {c2 : String} {cell : Cell}
    (hm : cell ∈ t2.colD c2) : cell ∈ t.colD c2 := by
  unfold statusFilter at h
  split at h
  · cases h
    rw [emptyTable_colD] at hm
    exact absurd hm (List.not_mem_nil _)
  · split at h
    · cases h
    · cases h
      exact filter_table_colD_subset hm

theorem pyRound2_nonneg {x : ℚ} (hx : 0 ≤ x) : 0 ≤ pyRound2 x := by
  unfold pyRound2
  have h100 : (0 : ℚ) ≤ x * 100 := by positivity
  have hf : (0 : ℤ) ≤ ⌊x * 100⌋ := Int.le_floor.mpr (by exact_mod_cast h100)
  have hfq : (0 : ℚ) ≤ (⌊x * 100⌋ : ℚ) := by exact_mod_cast hf
  dsimp only
  split_ifs <;> · apply div_nonneg _ (by norm_num); push_cast; linarith

theorem pyRound2_bounds {x : ℚ} (h1 : 17/25 ≤ x) (h2 : x ≤ 1) :
    17/25 ≤ pyRound2 x ∧ pyRound2 x ≤ 1 := by
  unfold pyRound2
  have hy1 : (68 : ℚ) ≤ x * 100 := by linarith
  have hy2 : x * 100 ≤ 100 := by linarith
  have hfl : (68 : ℤ) ≤ ⌊x * 100⌋ := Int.le_floor.mpr (by exact_mod_cast hy1)
  have hfu : ⌊x * 100⌋ ≤ 100 := by
    have h := Int.floor_le_floor hy2
    simpa using h
  have hflq : (68 : ℚ) ≤ (⌊x * 100⌋ : ℚ) := by exact_mod_cast hfl
  have hfuq : (⌊x * 100⌋ : ℚ) ≤ 100 := by exact_mod_cast hfu
  have hlow : x * 100 - 1 ≤ (⌊x * 100⌋ : ℚ) := by
    have := Int.lt_floor_add_one (x * 100)
    linarith
  have hle : (⌊x * 100⌋ : ℚ) ≤ x * 100 := Int.floor_le (x * 100)
  dsimp only
  split_ifs with ha hb hc
  · constructor <;> [linarith; linarith]
  · have h99 : (⌊x * 100⌋ : ℚ) ≤ 99 := by
      by_contra hcon
      push_neg at hcon
      have : (99 : ℤ) < ⌊x * 100⌋ := by exact_mod_cast hcon
      have : (100 : ℤ) ≤ ⌊x * 100⌋ := by omega
      have : (100 : ℚ) ≤ (⌊x * 100⌋ : ℚ) := by exact_mod_cast this
      linarith
    constructor <;> push_cast <;> linarith
  · constructor <;> [linarith; linarith]
  · have h99 : (⌊x * 100⌋ : ℚ) ≤ 99 := by
      by_contra hcon
      push_neg at hcon
      have h100i : (100 : ℤ) ≤ ⌊x * 100⌋ := by
        have : (99 : ℤ) < ⌊x * 100⌋ := by exact_mod_cast hcon
        omega
      have h100q : (100 : ℚ) ≤ (⌊x * 100⌋ : ℚ) := by exact_mod_cast h100i
      have hfe : (⌊x * 100⌋ : ℚ) = 100 := le_antisymm hfuq h100q
      rw [hfe] at ha hb
      have : x * 100 - 100 = 0 := by linarith
      have hz : x * 100 - 100 < 1/2 := by linarith
      exact ha hz
    constructor <;> push_cast <;> linarith

theorem safeDiv_zero_num (b : ℚ) : safeDiv 0 b = 0 := by
  unfold safeDiv
  split <;> simp

theorem safeDiv_nonneg {a b : ℚ} (ha : 0 ≤ a) (hb : 0 ≤ b) : 0 ≤ safeDiv a b := by
  unfold safeDiv
  split
  · exact le_refl 0
  · positivity

theorem confidence_bounds (n : ℕ) : 17/25 ≤ confidence n 1 ∧ confidence n 1 ≤ 1 := by
  unfold confidence
  dsimp only
  set s := min 1 (safeDiv (n : ℚ) 1000 + 1/5) with hs
  have hs1 : s ≤ 1 := min_le_left _ _
  have hs2 : 1/5 ≤ s := by
    apply le_min (by norm_num)
    have h0 : 0 ≤ safeDiv (n : ℚ) 1000 := safeDiv_nonneg (by positivity) (by norm_num)
    linarith
  have hv1 : 17/25 ≤ 3/5 * 1 + 2/5 * s := by linarith
  have hv2 : 3/5 * 1 + 2/5 * s ≤ 1 := by linarith
  have hmm : max (1/10) (min 1 (3/5 * 1 + 2/5 * s)) = 3/5 * 1 + 2/5 * s := by
    rw [min_eq_right hv2, max_eq_right (by linarith)]
  rw [hmm]
  exact pyRound2_bounds hv1 hv2

theorem pyRound2_int (z : ℤ) : pyRound2 (z : ℚ) = (z : ℚ) := by
  unfold pyRound2
  dsimp only
  have hf : ⌊(z : ℚ) * 100⌋ = z * 100 := by
    rw [show ((z : ℚ) * 100) = ((z * 100 : ℤ) : ℚ) by push_cast; ring]
    exact Int.floor_intCast _
  rw [hf]
  have hr : (z : ℚ) * 100 - ((z * 100 : ℤ) : ℚ) = 0 := by push_cast; ring
  rw [hr]
  rw [if_pos (by norm_num)]
  push_cast
  field_simp

theorem confidence_eq_one {n : ℕ} (h : 800 ≤ n) : confidence n 1 = 1 := by
  unfold confidence
  dsimp only
  have hn : (800 : ℚ) ≤ (n : ℚ) := by exact_mod_cast h
  have hdiv : safeDiv (n : ℚ) 1000 + 1/5 ≥ 1 := by
    unfold safeDiv
    rw [if_neg (by norm_num)]
    have : (4/5 : ℚ) ≤ (n : ℚ) / 1000 := by
      rw [le_div_iff (by norm_num : (0:ℚ) < 1000)]
      linarith
    linarith
  rw [min_eq_left hdiv]
  norm_num
  have := pyRound2_int 1
  simpa using this

theorem mem_insertDescQ {x y : ℚ} {l : List ℚ} (h : y ∈ insertDescQ x l) :
    y = x ∨ y ∈ l := by
  induction l with
  | nil => simpa [insertDescQ] using h
  | cons a l ih =>
    unfold insertDescQ at h
    split at h
    · exact List.mem_cons.mp h
    · rcases List.mem_cons.mp h with rfl | h1
      · exact Or.inr (List.mem_cons_self _ _)
      · rcases ih h1 with h2 | h2
        · exact Or.inl h2
        · exact Or.inr (List.mem_cons_of_mem _ h2)

theorem mem_sortDescQ {y : ℚ} {l : List ℚ} (h : y ∈ sortDescQ l) : y ∈ l := by
  induction l with
  | nil => simpa [sortDescQ] using h
  | cons a l ih =>
    have hs : sortDescQ (a :: l) = insertDescQ a (sortDescQ l) := rfl
    rw [hs] at h
    rcases mem_insertDescQ h with rfl | h1
    · exact List.mem_cons_self _ _
    · exact List.mem_cons_of_mem _ (ih h1)

theorem mem_of_mem_takeN {α : Type} {l : List α} {n : ℕ} {a : α}
    (h : a ∈ l.take n) : a ∈ l := by
  induction l generalizing n with
  | nil => simpa using h
  | cons x xs ih =>
    cases n with
    | zero => simp at h
    | succ m =>
      rcases List.mem_cons.mp h with rfl | h1
      · exact List.mem_cons_self _ _
      · exact List.mem_cons_of_mem _ (ih h1)

theorem mem_dedupAux {seen l : List Cell} {k : Cell} (h : k ∈ dedupAux seen l) :
    k ∈ l := by
  induction l generalizing seen with
  | nil => simpa [dedupAux] using h
  | cons a l ih =>
    unfold dedupAux at h
    split at h
    · exact List.mem_cons_of_mem a (ih h)
    · rcases List.mem_cons.mp h with rfl | h1
      · exact List.mem_cons_self _ _
      · exact List.mem_cons_of_mem a (ih h1)

theorem mem_dedupCells {l : List Cell} {k : Cell} (h : k ∈ dedupCells l) : k ∈ l :=
  mem_dedupAux h

theorem colD_of_colIdx {t : Table} {c : String} {i : ℕ}
    (hi : colIdx t.cols c = some i) :
    t.colD c = t.rows.map fun r => r.getD i Cell.na := by
  unfold Table.colD Table.col
  rw [hi]
  rfl

theorem except_bind_ok {ε α β : Type} (a : α) (f : α → Except ε β) :
    (Except.ok a >>= f) = f a := rfl

theorem except_bind_err {ε α β : Type} (e : ε) (f : α → Except ε β) :
    ((Except.error e : Except ε α) >>= f) = Except.error e := rfl

theorem clean_strs_nil {cells : List Cell}
    (hc : ∀ cell ∈ cells, cellClean cell = true) :
    (cells.filterMap fun c => match c with | .str s => some s | _ => none) = [] := by
  rw [List.filterMap_eq_nil]
  intro cell hcell
  cases cell with
  | num x => rfl
  | str s =>
    have hcl := hc _ hcell
    simp [cellClean] at hcl
  | na => rfl

theorem clean_nums_nonneg {cells : List Cell}
    (hc : ∀ cell ∈ cells, cellClean cell = true) :
    ∀ x ∈ (cells.filterMap fun c => match c with | .num x => some x | _ => none),
      (0 : ℚ) ≤ x := by
  intro x hx
  rcases List.mem_filterMap.mp hx with ⟨cell, hcell, heq⟩
  cases cell with
  | num y =>
    simp only [Option.some.injEq] at heq
    subst heq
    have hcl := hc _ hcell
    simpa [cellClean] using hcl
  | str s => simp at heq
  | na => simp at heq

theorem pandasSum_of_no_strs {cells : List Cell}
    (hstrs : (cells.filterMap fun c => match c with | .str s => some s | _ => none) = []) :
    pandasSum cells
      = .ok (.q (cells.filterMap fun c =>
          match c with | .num x => some x | _ => none).sum) := by
  unfold pandasSum
  dsimp only
  rw [hstrs]
  cases (cells.filterMap fun c => match c with | .num x => some x | _ => none) <;> rfl

theorem pandasSum_clean {cells : List Cell} {v : PyVal}
    (hc : ∀ cell ∈ cells, cellClean cell = true)
    (h : pandasSum cells = .ok v) : ∃ x, v = PyVal.q x ∧ 0 ≤ x := by
  have hs := pandasSum_of_no_strs (clean_strs_nil hc)
  rw [h] at hs
  have hv : v = PyVal.q (cells.filterMap fun c =>
      match c with | .num x => some x | _ => none).sum := by
    injection hs
  exact ⟨_, hv, List.sum_nonneg (clean_nums_nonneg hc)⟩

theorem pandasSumVals_of_no_strs {vals : List PyVal}
    (hstrs : (vals.filterMap fun v => match v with | .s s => some s | _ => none) = []) :
    pandasSumVals vals
      = .ok (.q (vals.filterMap fun v =>
          match v with | .q x => some x | _ => none).sum) := by
  unfold pandasSumVals
  dsimp only
  rw [hstrs]
  cases (vals.filterMap fun v => match v with | .q x => some x | _ => none) <;> rfl

theorem sumCol_clean {t : Table} {c : String} {v : ℚ}
    (hc : ∀ cell ∈ t.colD c, cellClean cell = true)
    (h : sumCol t c = .ok v) : 0 ≤ v := by
  unfold sumCol at h
  rw [pandasSum_of_no_strs (clean_strs_nil hc), except_bind_ok] at h
  have hv : v = (t.colD c |>.filterMap fun cl =>
      match cl with | .num x => some x | _ => none).sum := by
    unfold pyFloat at h
    injection h with h2
    exact h2.symm
  rw [hv]
  exact List.sum_nonneg (clean_nums_nonneg hc)

theorem sumsOfGroups_ok {gs : List (List Cell)} {vs : List PyVal}
    (h : sumsOfGroups gs = .ok vs) : ∀ v ∈ vs, ∃ g ∈ gs, pandasSum g = .ok v := by
  induction gs generalizing vs with
  | nil =>
    unfold sumsOfGroups at h
    injection h with h2
    subst h2
    intro v hv
    simp at hv
  | cons g gs ih =>
    unfold sumsOfGroups at h
    cases hg : pandasSum g with
    | error e => rw [hg, except_bind_err] at h; cases h
    | ok v0 =>
      rw [hg, except_bind_ok] at h
      cases hrest : sumsOfGroups gs with
      | error e => rw [hrest, except_bind_err] at h; cases h
      | ok vs0 =>
        rw [hrest, except_bind_ok] at h
        injection h with h2
        subst h2
        intro v hv
        rcases List.mem_cons.mp hv with rfl | hv1
        · exact ⟨g, List.mem_cons_self _ _, hg⟩
        · rcases ih hrest v hv1 with ⟨g1, hg1, hpv⟩
          exact ⟨g1, List.mem_cons_of_mem _ hg1, hpv⟩

theorem contains_mem {l : List String} {a : String} (h : l.contains a = true) :
    a ∈ l := by
  simpa using h

theorem mergePairs_snd_mem {ol rw : Table} {pr : Cell × Cell} {i : ℕ}
    (hi : colIdx rw.cols "refund_amount" = some i)
    (h : pr ∈ mergePairs ol rw) : pr.2 ∈ rw.colD "refund_amount" := by
  unfold mergePairs at h
  dsimp only at h
  rcases List.mem_flatMap.mp h with ⟨lr, _, hm⟩
  rcases List.mem_map.mp hm with ⟨rr, hrr, rfl⟩
  rw [colD_of_colIdx hi]
  simp only [hi, Option.getD_some]
  exact List.mem_map.mpr ⟨rr, (List.mem_filter.mp hrr).1, rfl⟩

theorem topFive_of_no_strs {vals : List PyVal}
    (hstrs : (vals.filterMap fun v => match v with | .s s => some s | _ => none) = []) :
    topFiveSumFloat vals
      = .ok ((sortDescQ (vals.filterMap fun v =>
          match v with | .q x => some x | _ => none)).take 5).sum := by
  unfold topFiveSumFloat
  dsimp only
  rw [hstrs]
  cases (vals.filterMap fun v => match v with | .q x => some x | _ => none) <;> rfl

theorem all_q_strs_nil {vals : List PyVal}
    (hall : ∀ s ∈ vals, ∃ x, s = PyVal.q x ∧ 0 ≤ x) :
    (vals.filterMap fun v => match v with | .s s => some s | _ => none) = [] := by
  rw [List.filterMap_eq_nil]
  intro s hsmem
  rcases hall s hsmem with ⟨x, rfl, _⟩
  rfl

theorem all_q_nums_nonneg {vals : List PyVal}
    (hall : ∀ s ∈ vals, ∃ x, s = PyVal.q x ∧ 0 ≤ x) :
    ∀ x ∈ (vals.filterMap fun v => match v with | .q x => some x | _ => none),
      (0 : ℚ) ≤ x := by
  intro x hx
  rcases List.mem_filterMap.mp hx with ⟨s, hsm, hmatch⟩
  rcases hall s hsm with ⟨x', rfl, hx'⟩
  simp only [Option.some.injEq] at hmatch
  exact hmatch ▸ hx'

theorem heur2_clean {ol rw : Table} {v : ℚ}
    (hc : ∀ cell ∈ rw.colD "refund_amount", cellClean cell = true)
    (h : heur2 ol rw = .ok v) : 0 ≤ v := by
  unfold heur2 at h
  split_ifs at h with h1 h2 h3 h4
  any_goals first
    | (simp only [Except.ok.injEq] at h; subst h; exact le_rfl)
    | exact le_rfl
    | cases h
  have hcontains : rw.cols.contains "refund_amount" = true := by
    revert h2
    cases rw.cols.contains "refund_amount" <;> simp
  rcases Option.isSome_iff_exists.mp
    (colIdx_isSome_iff.mpr (contains_mem hcontains)) with ⟨i, hi⟩
  dsimp only at h
  cases hs : sumsOfGroups
      ((dedupCells ((mergePairs ol rw).map (·.1))).map fun k =>
        ((mergePairs ol rw).filter fun pr => pr.1 == k).map (·.2)) with
  | error e => rw [hs, except_bind_err] at h; cases h
  | ok sums =>
    rw [hs, except_bind_ok] at h
    have hall : ∀ s ∈ sums, ∃ x, s = PyVal.q x ∧ 0 ≤ x := by
      intro s hsmem
      rcases sumsOfGroups_ok hs s hsmem with ⟨g, hg, hpg⟩
      rcases List.mem_map.mp hg with ⟨k, _, rfl⟩
      apply pandasSum_clean _ hpg
      intro cell hcell
      rcases List.mem_map.mp hcell with ⟨pr, hpr, rfl⟩
      exact hc _ (mergePairs_snd_mem hi (List.mem_filter.mp hpr).1)
    rw [topFive_of_no_strs (all_q_strs_nil hall)] at h
    simp only [Except.ok.injEq] at h
    subst h
    refine List.sum_nonneg fun x hx => ?_
    exact all_q_nums_nonneg hall x (mem_sortDescQ (mem_of_mem_takeN hx))

theorem heur4Vals_mem {triples : List (Cell × Cell × Cell)} {ks : List Cell}
    {vs : List PyVal} (h : heur4Vals triples ks = .ok vs) :
    ∀ v ∈ vs, ∃ k, pandasSum
      ((triples.filter fun tr => tr.1 == k).map fun tr => tr.2.2) = .ok v := by
  induction ks generalizing vs with
  | nil =>
    unfold heur4Vals at h
    injection h with h2
    subst h2
    intro v hv
    simp at hv
  | cons k ks ih =>
    unfold heur4Vals at h
    dsimp only at h
    cases hg : pandasSum ((triples.filter fun tr => tr.1 == k).map fun tr => tr.2.2) with
    | error e => rw [hg, except_bind_err] at h; cases h
    | ok v0 =>
      rw [hg, except_bind_ok] at h
      cases hrest : heur4Vals triples ks with
      | error e => rw [hrest, except_bind_err] at h; cases h
      | ok rest =>
        rw [hrest, except_bind_ok] at h
        simp only [Except.ok.injEq] at h
        subst h
        intro v hv
        split at hv
        · rcases List.mem_cons.mp hv with rfl | hv1
          · exact ⟨k, hg⟩
          · exact ih hrest v hv1
        · exact ih hrest v hv

theorem heur4_clean {d : Table} {v : ℚ}
    (hc : ∀ cell ∈ d.colD "discount_value", cellClean cell = true)
    (h : heur4 d = .ok v) : 0 ≤ v := by
  unfold heur4 at h
  split_ifs at h with h1 h2
  any_goals first
    | (simp only [Except.ok.injEq] at h; subst h; exact le_rfl)
    | exact le_rfl
    | cases h
  have hcontains : d.cols.contains "discount_value" = true := by
    revert h2
    cases hcc : d.cols.contains "coupon_code" <;>
      cases hcu : d.cols.contains "customer_id" <;>
        cases hcv : d.cols.contains "discount_value" <;> simp
  rcases Option.isSome_iff_exists.mp
    (colIdx_isSome_iff.mpr (contains_mem hcontains)) with ⟨i, hi⟩
  dsimp only at h
  cases hv4 : heur4Vals
      (d.rows.map fun r =>
        (r.getD ((colIdx d.cols "coupon_code").getD 0) Cell.na,
          r.getD ((colIdx d.cols "customer_id").getD 0) Cell.na,
          r.getD ((colIdx d.cols "discount_value").getD 0) Cell.na))
      (dedupCells ((d.rows.map fun r =>
        (r.getD ((colIdx d.cols "coupon_code").getD 0) Cell.na,
          r.getD ((colIdx d.cols "customer_id").getD 0) Cell.na,
          r.getD ((colIdx d.cols "discount_value").getD 0) Cell.na)).map (·.1))) with
  | error e => rw [hv4, except_bind_err] at h; cases h
  | ok vals =>
    rw [hv4, except_bind_ok] at h
    have hall : ∀ s ∈ vals, ∃ x, s = PyVal.q x ∧ 0 ≤ x := by
      intro s hsmem
      rcases heur4Vals_mem hv4 s hsmem with ⟨k, hpg⟩
      apply pandasSum_clean _ hpg
      intro cell hcell
      rcases List.mem_map.mp hcell with ⟨tr, htr, rfl⟩
      rcases List.mem_map.mp (List.mem_filter.mp htr).1 with ⟨r, hr, rfl⟩
      apply hc
      rw [colD_of_colIdx hi]
      refine List.mem_map.mpr ⟨r, hr, ?_⟩
      simp [hi]
    rw [pandasSumVals_of_no_strs (all_q_strs_nil hall), except_bind_ok] at h
    unfold pyFloat at h
    simp only [Except.ok.injEq] at h
    subst h
    exact List.sum_nonneg (all_q_nums_nonneg hall)

theorem except_pure {ε α : Type} (a : α) : (pure a : Except ε α) = Except.ok a := rfl

theorem except_map_ok {ε α β : Type} (f : α → β) (a : α) :
    (Except.ok a : Except ε α).map f = .ok (f a) := rfl

theorem except_map_err {ε α β : Type} (f : α → β) (e : ε) :
    (Except.error e : Except ε α).map f = .error e := rfl

theorem computeAggs_ok {ow ob rw rb pw pb tw tb ol d : Table} {A : Aggs}
    (h : computeAggs ow ob rw rb pw pb tw tb ol d = .ok A) :
    sumCol ow "net_revenue" = .ok A.netW ∧
    sumCol rw "refund_amount" = .ok A.refundW ∧
    sumCol rb "refund_amount" = .ok A.refundB ∧
    heur2 ol rw = .ok A.loss2raw ∧
    heur4 d = .ok A.loss4raw ∧
    (∃ fw, statusFilter pw "failed" = .ok fw ∧
      (A.failAmtW = 0 ∨ sumCol fw "amount" = .ok A.failAmtW)) ∧
    (∃ dw, statusFilter pw "disputed" = .ok dw ∧
      sumCol dw "dispute_amount" = .ok A.dispAmtW) := by
  unfold computeAggs at h
  rcases h1 : sumCol ow "net_revenue" with e | netW
  · rw [h1, except_bind_err] at h; cases h
  rw [h1, except_bind_ok] at h
  rcases h2 : sumCol ob "net_revenue" with e | netB
  · rw [h2, except_bind_err] at h; cases h
  rw [h2, except_bind_ok] at h
  rcases h3 : sumCol ow "gross_revenue" with e | grossW
  · rw [h3, except_bind_err] at h; cases h
  rw [h3, except_bind_ok] at h
  rcases h4 : sumCol rw "refund_amount" with e | refundW
  · rw [h4, except_bind_err] at h; cases h
  rw [h4, except_bind_ok] at h
  rcases h5 : sumCol rb "refund_amount" with e | refundB
  · rw [h5, except_bind_err] at h; cases h
  rw [h5, except_bind_ok] at h
  rcases h6 : sumCol ow "discount_amount" with e | discountW
  · rw [h6, except_bind_err] at h; cases h
  rw [h6, except_bind_ok] at h
  rcases h7 : sumCol ob "discount_amount" with e | discountB
  · rw [h7, except_bind_err] at h; cases h
  rw [h7, except_bind_ok] at h
  rcases h8 : sumCol ob "gross_revenue" with e | grossB
  · rw [h8, except_bind_err] at h; cases h
  rw [h8, except_bind_ok] at h
  rcases h9 : sumCol ow "shipping_cost" with e | shippingW
  · rw [h9, except_bind_err] at h; cases h
  rw [h9, except_bind_ok] at h
  rcases h10 : sumCol ob "shipping_cost" with e | shippingB
  · rw [h10, except_bind_err] at h; cases h
  rw [h10, except_bind_ok] at h
  rcases h11 : statusFilter pw "failed" with e | failW
  · rw [h11, except_bind_err] at h; cases h
  rw [h11, except_bind_ok] at h
  rcases h12 : statusFilter pb "failed" with e | failB
  · rw [h12, except_bind_err] at h; cases h
  rw [h12, except_bind_ok] at h
  rcases h13 : sumCol ow "cogs_total" with e | cogsW
  · rw [h13, except_bind_err] at h; cases h
  rw [h13, except_bind_ok] at h
  rcases h14 : sumCol ob "cogs_total" with e | cogsB
  · rw [h14, except_bind_err] at h; cases h
  rw [h14, except_bind_ok] at h
  rcases h15 : heur2 ol rw with e | loss2
  · rw [h15, except_bind_err] at h; cases h
  rw [h15, except_bind_ok] at h
  rcases h16 : heur4 d with e | loss4
  · rw [h16, except_bind_err] at h; cases h
  rw [h16, except_bind_ok] at h
  by_cases hfe : failW.isEmptyT = true
  · rw [if_pos hfe, except_pure, except_bind_ok] at h
    dsimp only at h
    rcases h18 : statusFilter pw "disputed" with e | dispW
    · rw [h18, except_bind_err] at h; cases h
    rw [h18, except_bind_ok] at h
    rcases h19 : statusFilter pb "disputed" with e | dispB
    · rw [h19, except_bind_err] at h; cases h
    rw [h19, except_bind_ok] at h
    rcases h20 : sumCol dispW "dispute_amount" with e | dispAmtW
    · rw [h20, except_bind_err] at h; cases h
    rw [h20, except_bind_ok] at h
    simp only [Except.ok.injEq] at h
    subst h
    exact ⟨rfl, rfl, rfl, rfl, rfl, ⟨failW, rfl, Or.inl rfl⟩, ⟨dispW, rfl, h20⟩⟩
  · rw [if_neg hfe] at h
    rcases h17 : sumCol failW "amount" with e | failAmtW
    · rw [h17, except_bind_err] at h; cases h
    rw [h17, except_bind_ok] at h
    dsimp only at h
    rcases h18 : statusFilter pw "disputed" with e | dispW
    · rw [h18, except_bind_err] at h; cases h
    rw [h18, except_bind_ok] at h
    rcases h19 : statusFilter pb "disputed" with e | dispB
    · rw [h19, except_bind_err] at h; cases h
    rw [h19, except_bind_ok] at h
    rcases h20 : sumCol dispW "dispute_amount" with e | dispAmtW
    · rw [h20, except_bind_err] at h; cases h
    rw [h20, except_bind_ok] at h
    simp only [Except.ok.injEq] at h
    subst h
    exact ⟨rfl, rfl, rfl, rfl, rfl, ⟨failW, rfl, Or.inr h17⟩, ⟨dispW, rfl, h20⟩⟩

theorem evaluate_ok_elim {orders order_lines refunds payments tickets discounts : Table}
    {now : ℚ} {r : Report}
    (h : evaluate orders order_lines refunds payments tickets discounts now = .ok r) :
    ∃ anchor A,
      anchorOf (toDt orders "order_ts") (toDt refunds "refund_ts")
        (toDt payments "payment_ts") = some anchor ∧
      computeAggs
        (sliceTable (toDt orders "order_ts") "order_ts" (anchor - 28*86400) anchor)
        (sliceTable (toDt orders "order_ts") "order_ts" (anchor - 112*86400) (anchor - 28*86400))
        (sliceTable (toDt refunds "refund_ts") "refund_ts" (anchor - 28*86400) anchor)
        (sliceTable (toDt refunds "refund_ts") "refund_ts" (anchor - 112*86400) (anchor - 28*86400))
        (sliceTable (toDt payments "payment_ts") "payment_ts" (anchor - 28*86400) anchor)
        (sliceTable (toDt payments "payment_ts") "payment_ts" (anchor - 112*86400) (anchor - 28*86400))
        (sliceTable (toDt tickets "created_ts") "created_ts" (anchor - 28*86400) anchor)
        (sliceTable (toDt tickets "created_ts") "created_ts" (anchor - 112*86400) (anchor - 28*86400))
        order_lines discounts = .ok A ∧
      r = mkReport (anchor - 28*86400) anchor (anchor - 112*86400) (anchor - 28*86400) A := by
  unfold evaluate at h
  dsimp only at h
  rcases han : anchorOf (toDt orders "order_ts") (toDt refunds "refund_ts")
      (toDt payments "payment_ts") with _ | anchor
  · rw [han] at h
    simp at h
  · rw [han] at h
    dsimp only at h
    rcases hA : computeAggs
        (sliceTable (toDt orders "order_ts") "order_ts" (anchor - 28*86400) anchor)
        (sliceTable (toDt orders "order_ts") "order_ts" (anchor - 112*86400) (anchor - 28*86400))
        (sliceTable (toDt refunds "refund_ts") "refund_ts" (anchor - 28*86400) anchor)
        (sliceTable (toDt refunds "refund_ts") "refund_ts" (anchor - 112*86400) (anchor - 28*86400))
        (sliceTable (toDt payments "payment_ts") "payment_ts" (anchor - 28*86400) anchor)
        (sliceTable (toDt payments "payment_ts") "payment_ts" (anchor - 112*86400) (anchor - 28*86400))
        (sliceTable (toDt tickets "created_ts") "created_ts" (anchor - 28*86400) anchor)
        (sliceTable (toDt tickets "created_ts") "created_ts" (anchor - 112*86400) (anchor - 28*86400))
        order_lines discounts with e | A
    · rw [hA, except_map_err] at h
      cases h
    · rw [hA, except_map_ok] at h
      injection h with h2
      exact ⟨anchor, A, rfl, hA, h2.symm⟩

theorem monClean_cell {t : Table} (h : t.monClean = true) {c : String}
    (hc : c ∈ monetaryCols) {cell : Cell} (hm : cell ∈ t.colD c) :
    cellClean cell = true := by
  unfold Table.monClean at h
  rw [List.all_eq_true] at h
  have h2 := h c hc
  rw [List.all_eq_true] at h2
  exact h2 cell hm

theorem mkSignals_confidence_bounds (A : Aggs) :
    ∀ s ∈ mkSignals A, 17/25 ≤ s.confidence ∧ s.confidence ≤ 1 := by
  intro s hs
  unfold mkSignals at hs
  dsimp only at hs
  simp only [List.mem_cons, List.not_mem_nil, or_false] at hs
  rcases hs with rfl | rfl | rfl | rfl | rfl | rfl | rfl | rfl | rfl | rfl <;>
    exact confidence_bounds _

theorem mkSignals_loss_nonneg {A : Aggs}
    (h2 : 0 ≤ A.loss2raw) (h4 : 0 ≤ A.loss4raw)
    (h6 : 0 ≤ A.failAmtW) (h7 : 0 ≤ A.dispAmtW) (hnet : 0 ≤ A.netW) :
    ∀ s ∈ mkSignals A, 0 ≤ s.estimated_loss_usd := by
  intro s hs
  unfold mkSignals at hs
  dsimp only at hs
  simp only [List.mem_cons, List.not_mem_nil, or_false] at hs
  rcases hs with rfl | rfl | rfl | rfl | rfl | rfl | rfl | rfl | rfl | rfl <;>
    apply pyRound2_nonneg
  · split
    · exact le_max_left 0 _
    · exact le_rfl
  · exact h2
  · split
    · exact le_max_left 0 _
    · exact le_rfl
  · exact h4
  · split
    · exact le_max_left 0 _
    · exact le_rfl
  · split
    · exact h6
    · exact le_rfl
  · split
    · have hlen : (0 : ℚ) ≤ (A.dispWLen : ℚ) * 15 := by positivity
      linarith
    · exact le_rfl
  · split
    · exact le_max_left 0 _
    · exact le_rfl
  · split
    · exact le_max_left 0 _
    · exact le_rfl
  · split
    next hcond =>
      have hrep : (A.repW : ℚ) ≤ (A.repB : ℚ) := by exact_mod_cast hcond.2.le
      have haov : 0 ≤ safeDiv A.netW ((max A.owLen 1 : ℕ) : ℚ) :=
        safeDiv_nonneg hnet (by positivity)
      have hd : 0 ≤ (A.repB : ℚ) - (A.repW : ℚ) := by linarith
      exact mul_nonneg hd haov
    next => exact le_rfl

/-- C1: on six empty input tables `evaluate` does not return a report at
all — the anchor fallback `pd.Timestamp.utcnow().tz_localize(UTC)` calls
`tz_localize` on an already tz-aware timestamp, which raises `TypeError` —
contradicting the claim (and the spec) that empty input yields a ten-signal
report; as soon as any anchor candidate exists (second conjunct: a one-row
orders table) the returned report does carry exactly the ten signal ids in
fixed declaration order. -/
theorem C1_empty_input_raises_not_ten_signals :
    evaluate emptyTable emptyTable emptyTable emptyTable emptyTable emptyTable 0
      = .error (.typeErr
          "Cannot localize tz-aware Timestamp, use tz_convert for conversions")
    ∧ (evaluate ⟨["order_ts"], [[Cell.num 0]]⟩ emptyTable emptyTable emptyTable
          emptyTable emptyTable 0).map (fun r => r.signals.map (·.signal_id))
      = .ok ["refund_spike", "sku_refund_concentration", "discount_overuse",
          "coupon_abuse", "shipping_cost_creep", "failed_payment_recovery",
          "dispute_chargeback", "margin_compression", "support_linked_refunds",
          "repeat_customer_churn"] :=
  ⟨rfl, rfl⟩

/-- C2: whenever `evaluate` returns a report, the summary total equals the
sum of the ten signals' (already cent-rounded) `estimated_loss_usd` values,
rounded to cents, and the signal list has exactly ten entries. -/
theorem C2_total_is_rounded_sum
    (orders order_lines refunds payments tickets discounts : Table) (now : ℚ)
    (r : Report)
    (h : evaluate orders order_lines refunds payments tickets discounts now = .ok r) :
    r.total_estimated_loss_usd
      = pyRound2 ((r.signals.map (·.estimated_loss_usd)).sum)
    ∧ r.signals.length = 10 := by
  rcases evaluate_ok_elim h with ⟨a, A, -, -, rfl⟩
  exact ⟨rfl, rfl⟩

/-- C2 witness: the sum invariant evaluated at a concrete one-row input. -/
theorem C2_total_is_rounded_sum_witness :
    (reportOf (evaluate ⟨["order_ts"], [[Cell.num 86400]]⟩ emptyTable emptyTable
        emptyTable emptyTable emptyTable 0)).total_estimated_loss_usd
      = pyRound2 (((reportOf (evaluate ⟨["order_ts"], [[Cell.num 86400]]⟩ emptyTable
          emptyTable emptyTable emptyTable emptyTable 0)).signals.map
            (·.estimated_loss_usd)).sum)
    ∧ (reportOf (evaluate ⟨["order_ts"], [[Cell.num 86400]]⟩ emptyTable emptyTable
        emptyTable emptyTable emptyTable 0)).signals.length = 10 := by
  have h : evaluate ⟨["order_ts"], [[Cell.num 86400]]⟩ emptyTable emptyTable
      emptyTable emptyTable emptyTable 0
      = .ok (reportOf (evaluate ⟨["order_ts"], [[Cell.num 86400]]⟩ emptyTable
          emptyTable emptyTable emptyTable emptyTable 0)) := by rfl
  exact C2_total_is_rounded_sum _ _ _ _ _ _ 0 _ h

/-- C4 counterexample: an orders table whose `net_revenue` column contains
the non-numeric token `abc` for which `evaluate` nevertheless RETURNS a
report (the offending row's timestamp is unparseable, so the bad cell never
reaches a consulted sum) — refuting the claim that any non-numeric value in
a monetary column raises a `DataCoercionError` and that no report is
returned. -/
theorem C4_nonnumeric_can_return_report :
    (evaluate ⟨["order_ts", "net_revenue"],
          [[Cell.num 86400, Cell.num 5], [Cell.str "x", Cell.str "abc"]]⟩
        emptyTable emptyTable emptyTable emptyTable emptyTable 0).map
      (fun r => r.summary_signals) = .ok 10
    ∧ Cell.str "abc" ∈ (Table.mk ["order_ts", "net_revenue"]
        [[Cell.num 86400, Cell.num 5], [Cell.str "x", Cell.str "abc"]]).colD
          "net_revenue" := by
  exact ⟨by rfl, by decide⟩

/-- C4 amended: no engine-defined `DataCoercionError` exists; a
non-numeric value in a monetary column aborts the evaluation exactly when
it reaches one of the sums the engine computes, and the raised exception is
the underlying unstructured conversion error, which names neither the table
nor the column.  First conjunct: a token inside the orders window slice
reaches the `net_revenue` sum and aborts with `ValueError` from
`float(...)` (its message names the token only).  Second conjunct: a
non-numeric `discount_value` in the discounts table — which is never
window-sliced, so its row lies in no window or baseline slice — still
aborts, with `TypeError` from the mixed-dtype per-group sum of
heuristic 4. -/
theorem C4_amended_unstructured_conversion_errors :
    evaluate ⟨["order_ts", "net_revenue"],
        [[Cell.num 8640000, Cell.num 0], [Cell.num 8553600, Cell.str "abc"]]⟩
      emptyTable emptyTable emptyTable emptyTable emptyTable 0
      = .error (.valueErr "could not convert string to float: abc")
    ∧ evaluate ⟨["order_ts"], [[Cell.num 0]]⟩ emptyTable emptyTable emptyTable
        emptyTable
        ⟨["coupon_code", "customer_id", "discount_value"],
          [[Cell.str "C", Cell.str "u", Cell.num 1],
            [Cell.str "C", Cell.str "u", Cell.str "bad"]]⟩ 0
      = .error (.typeErr "unsupported operand type for +: float and str") :=
  ⟨by rfl, by rfl⟩

/-- C5: `evaluate` is deterministic — its outcome does not depend on the
ambient clock (on the only clock-reading path the engine raises before the
clock value can be observed, see C1), so two calls on equal tables return
equal (hence byte-identical when serialized) outcomes; the third conjunct
covers a literal second call, made on the argument tables as the first call
leaves them (their timestamp columns coerced in place): it still returns
the first call's exact report, because the coercion is idempotent. -/
theorem C5_deterministic
    (orders order_lines refunds payments tickets discounts : Table)
    (now1 now2 : ℚ) :
    evaluate orders order_lines refunds payments tickets discounts now1
      = evaluate orders order_lines refunds payments tickets discounts now2
    ∧ (evaluate orders order_lines refunds payments tickets discounts now1).map
        serializeReport
      = (evaluate orders order_lines refunds payments tickets discounts now2).map
          serializeReport
    ∧ evaluate (toDt orders "order_ts") order_lines (toDt refunds "refund_ts")
        (toDt payments "payment_ts") (toDt tickets "created_ts") discounts now2
      = evaluate orders order_lines refunds payments tickets discounts now1 := by
  refine ⟨rfl, rfl, ?_⟩
  unfold evaluate
  rw [toDt_idem, toDt_idem, toDt_idem, toDt_idem]

/-- C6 counterexample: `evaluate` is not side-effect-free on its arguments —
after the call the caller's orders table differs from the one passed in:
its `order_ts` column has been coerced in place (the unparseable entry
became NaT), exactly the mutation performed by `_to_dt` at lines 45-48 and
77-80. -/
theorem C6_arguments_are_mutated :
    (evaluateArgsAfter ⟨["order_ts"], [[Cell.str "not-a-date"]]⟩ emptyTable emptyTable
        emptyTable emptyTable emptyTable).1
      ≠ ⟨["order_ts"], [[Cell.str "not-a-date"]]⟩
    ∧ (evaluateArgsAfter ⟨["order_ts"], [[Cell.str "not-a-date"]]⟩ emptyTable emptyTable
        emptyTable emptyTable emptyTable).1.colD "order_ts" = [Cell.na]
    ∧ (⟨["order_ts"], [[Cell.str "not-a-date"]]⟩ : Table).colD "order_ts"
      = [Cell.str "not-a-date"] :=
  ⟨by decide, by rfl, by rfl⟩

/-- C6 amended: the only mutation `evaluate` performs on its arguments is
the in-place datetime coercion of the four timestamp columns: order-lines
and discounts are untouched, and for each of the other four tables the
column names, the row count and every other column are preserved, while the
timestamp column is replaced by its elementwise coercion. -/
theorem C6_amended_only_ts_columns_coerced
    (orders order_lines refunds payments tickets discounts : Table) :
    (evaluateArgsAfter orders order_lines refunds payments tickets discounts).2.1
      = order_lines
    ∧ (evaluateArgsAfter orders order_lines refunds payments tickets discounts).2.2.2.2.2
      = discounts
    ∧ ((evaluateArgsAfter orders order_lines refunds payments tickets discounts).1.cols
        = orders.cols
      ∧ (evaluateArgsAfter orders order_lines refunds payments tickets
          discounts).1.rows.length = orders.rows.length
      ∧ (∀ c2, c2 ≠ "order_ts" →
          (evaluateArgsAfter orders order_lines refunds payments tickets
            discounts).1.col c2 = orders.col c2)
      ∧ (evaluateArgsAfter orders order_lines refunds payments tickets
          discounts).1.col "order_ts"
        = (orders.col "order_ts").map (List.map coerceDt))
    ∧ ((evaluateArgsAfter orders order_lines refunds payments tickets
          discounts).2.2.1.cols = refunds.cols
      ∧ (evaluateArgsAfter orders order_lines refunds payments tickets
          discounts).2.2.1.rows.length = refunds.rows.length
      ∧ (∀ c2, c2 ≠ "refund_ts" →
          (evaluateArgsAfter orders order_lines refunds payments tickets
            discounts).2.2.1.col c2 = refunds.col c2)
      ∧ (evaluateArgsAfter orders order_lines refunds payments tickets
          discounts).2.2.1.col "refund_ts"
        = (refunds.col "refund_ts").map (List.map coerceDt))
    ∧ ((evaluateArgsAfter orders order_lines refunds payments tickets
          discounts).2.2.2.1.cols = payments.cols
      ∧ (evaluateArgsAfter orders order_lines refunds payments tickets
          discounts).2.2.2.1.rows.length = payments.rows.length
      ∧ (∀ c2, c2 ≠ "payment_ts" →
          (evaluateArgsAfter orders order_lines refunds payments tickets
            discounts).2.2.2.1.col c2 = payments.col c2)
      ∧ (evaluateArgsAfter orders order_lines refunds payments tickets
          discounts).2.2.2.1.col "payment_ts"
        = (payments.col "payment_ts").map (List.map coerceDt))
    ∧ ((evaluateArgsAfter orders order_lines refunds payments tickets
          discounts).2.2.2.2.1.cols = tickets.cols
      ∧ (evaluateArgsAfter orders order_lines refunds payments tickets
          discounts).2.2.2.2.1.rows.length = tickets.rows.length
      ∧ (∀ c2, c2 ≠ "created_ts" →
          (evaluateArgsAfter orders order_lines refunds payments tickets
            discounts).2.2.2.2.1.col c2 = tickets.col c2)
      ∧ (evaluateArgsAfter orders order_lines refunds payments tickets
          discounts).2.2.2.2.1.col "created_ts"
        = (tickets.col "created_ts").map (List.map coerceDt)) :=
  ⟨rfl, rfl,
    ⟨toDt_cols _ _, toDt_rows_length _ _, fun _ h => toDt_col_ne _ h, toDt_col_self _ _⟩,
    ⟨toDt_cols _ _, toDt_rows_length _ _, fun _ h => toDt_col_ne _ h, toDt_col_self _ _⟩,
    ⟨toDt_cols _ _, toDt_rows_length _ _, fun _ h => toDt_col_ne _ h, toDt_col_self _ _⟩,
    ⟨toDt_cols _ _, toDt_rows_length _ _, fun _ h => toDt_col_ne _ h, toDt_col_self _ _⟩⟩

/-- C6 amended witness: the frame property evaluated at a concrete table —
the `net_revenue` column survives the call unchanged. -/
theorem C6_amended_only_ts_columns_coerced_witness :
    (evaluateArgsAfter ⟨["order_ts", "net_revenue"], [[Cell.str "x", Cell.num 5]]⟩
        emptyTable emptyTable emptyTable emptyTable emptyTable).1.col "net_revenue"
      = (⟨["order_ts", "net_revenue"], [[Cell.str "x", Cell.num 5]]⟩ : Table).col
          "net_revenue" := by
  obtain ⟨-, -, ⟨-, -, h3, -⟩, -, -, -⟩ :=
    C6_amended_only_ts_columns_coerced
      ⟨["order_ts", "net_revenue"], [[Cell.str "x", Cell.num 5]]⟩
      emptyTable emptyTable emptyTable emptyTable emptyTable
  exact h3 "net_revenue" (by decide)

/-- C9: the window/baseline slicer uses half-open interval semantics — a
row is in the slice exactly when the table has the timestamp column and the
row's parsed timestamp lies in `[lo, hi)`; in particular a row whose
timestamp equals the upper bound (the anchor for the window slice,
`baseline_end` for the baseline slice) is excluded.  Since the anchor is
the maximum observed timestamp, the latest row never enters the window it
defines. -/
theorem C9_halfopen_slicing (t : Table) (c : String) (lo hi : ℚ) (row : List Cell) :
    (row ∈ (sliceTable t c lo hi).rows ↔
      row ∈ t.rows ∧ c ∈ t.cols ∧ ∃ x, rowTs t c row = .num x ∧ lo ≤ x ∧ x < hi)
    ∧ (rowTs t c row = .num hi → row ∉ (sliceTable t c lo hi).rows) := by
  refine ⟨sliceTable_mem, fun hts hmem => ?_⟩
  rcases sliceTable_mem.mp hmem with ⟨-, -, x, hx, -, hlt⟩
  rw [hts] at hx
  injection hx with hx2
  subst hx2
  exact lt_irrefl _ hlt

/-- C9 witness: a refund row timestamped exactly at the anchor is not in
the window slice it defines. -/
theorem C9_halfopen_slicing_witness :
    [Cell.num 100] ∉ (sliceTable ⟨["refund_ts"], [[Cell.num 100]]⟩
      "refund_ts" 0 100).rows :=
  (C9_halfopen_slicing ⟨["refund_ts"], [[Cell.num 100]]⟩ "refund_ts" 0 100
    [Cell.num 100]).2 (by rfl)

/-- C10: `_confidence` at its default completeness of `1.0` (the only way
`evaluate` ever calls it) is bounded into `[0.68, 1]` — the documented
`0.1` lower clamp is unreachable — it equals exactly `1.0` from sample
size `800` up, and consequently every confidence in every returned report
lies in `[0.68, 1]`. -/
theorem C10_confidence_default_bounds :
    (∀ n : ℕ, 17/25 ≤ confidence n 1 ∧ confidence n 1 ≤ 1)
    ∧ (∀ n : ℕ, 800 ≤ n → confidence n 1 = 1)
    ∧ ∀ (orders order_lines refunds payments tickets discounts : Table) (now : ℚ)
        (r : Report),
        evaluate orders order_lines refunds payments tickets discounts now = .ok r →
        ∀ s ∈ r.signals, 17/25 ≤ s.confidence ∧ s.confidence ≤ 1 := by
  refine ⟨confidence_bounds, fun n h => confidence_eq_one h, ?_⟩
  intro o l rf p t d now r h s hs
  rcases evaluate_ok_elim h with ⟨a, A, -, -, rfl⟩
  exact mkSignals_confidence_bounds A s hs

/-- C10 witness: the bounds at concrete sample sizes and at a concrete
signal of a concrete report. -/
theorem C10_confidence_default_bounds_witness :
    confidence 800 1 = 1
    ∧ (17/25 ≤ confidence 0 1 ∧ confidence 0 1 ≤ 1)
    ∧ 17/25 ≤ ((reportOf (evaluate ⟨["order_ts"], [[Cell.num 42]]⟩ emptyTable
        emptyTable emptyTable emptyTable emptyTable 0)).signals.getD 0
          ⟨"", 0, "", 0, "", []⟩).confidence := by
  refine ⟨C10_confidence_default_bounds.2.1 800 (by norm_num),
    C10_confidence_default_bounds.1 0, ?_⟩
  have h : evaluate ⟨["order_ts"], [[Cell.num 42]]⟩ emptyTable emptyTable emptyTable
      emptyTable emptyTable 0
      = .ok (reportOf (evaluate ⟨["order_ts"], [[Cell.num 42]]⟩ emptyTable emptyTable
          emptyTable emptyTable emptyTable 0)) := by rfl
  exact (C10_confidence_default_bounds.2.2 _ _ _ _ _ _ 0 _ h _ (by decide)).1

/-- C7 counterexample: coupon abuse is computed over the WHOLE discounts
table, not over a window slice of it.  A discounts table whose one code is
redeemed four times by one customer yields loss `40` (and the full engine
reports `40` for the `coupon_abuse` signal), whereas slicing the discounts
table by any timestamp column — its schema declares none, so per the
slicing rule the slice is the empty frame — would force the loss to `0`. -/
theorem C7_coupon_abuse_uses_whole_table :
    heur4 ⟨["order_id", "coupon_code", "customer_id", "discount_value"],
        [[Cell.num 1, Cell.str "C", Cell.str "u1", Cell.num 10],
          [Cell.num 2, Cell.str "C", Cell.str "u1", Cell.num 10],
          [Cell.num 3, Cell.str "C", Cell.str "u1", Cell.num 10],
          [Cell.num 4, Cell.str "C", Cell.str "u1", Cell.num 10]]⟩ = .ok 40
    ∧ heur4 (sliceTable
        ⟨["order_id", "coupon_code", "customer_id", "discount_value"],
          [[Cell.num 1, Cell.str "C", Cell.str "u1", Cell.num 10],
            [Cell.num 2, Cell.str "C", Cell.str "u1", Cell.num 10],
            [Cell.num 3, Cell.str "C", Cell.str "u1", Cell.num 10],
            [Cell.num 4, Cell.str "C", Cell.str "u1", Cell.num 10]]⟩
        "event_ts" 0 1000000) = .ok 0
    ∧ ((40 : ℚ) ≠ 0)
    ∧ (evaluate ⟨["order_ts"], [[Cell.num 0]]⟩ emptyTable emptyTable emptyTable
        emptyTable
        ⟨["order_id", "coupon_code", "customer_id", "discount_value"],
          [[Cell.num 1, Cell.str "C", Cell.str "u1", Cell.num 10],
            [Cell.num 2, Cell.str "C", Cell.str "u1", Cell.num 10],
            [Cell.num 3, Cell.str "C", Cell.str "u1", Cell.num 10],
            [Cell.num 4, Cell.str "C", Cell.str "u1", Cell.num 10]]⟩ 0).map
      (fun r => (r.signals.map (·.estimated_loss_usd)).getD 3 0) = .ok 40 :=
  ⟨by rfl, by rfl, by norm_num, by rfl⟩

/-- C7 amended: the `coupon_abuse` signal of every returned report equals
the cent-rounded result of `heur4` applied to the entire discounts argument
(grouping by coupon_code, ratio `uses / max(users, 1)` strictly above 3),
and `heur4` returns `0` whenever any required column is missing. -/
theorem C7_amended_coupon_abuse_whole_table :
    (∀ (orders order_lines refunds payments tickets discounts : Table) (now : ℚ)
        (r : Report),
      evaluate orders order_lines refunds payments tickets discounts now = .ok r →
      (heur4 discounts).map pyRound2
        = .ok ((r.signals.map (·.estimated_loss_usd)).getD 3 0))
    ∧ ∀ d : Table,
        (d.cols.contains "coupon_code" = false ∨ d.cols.contains "customer_id" = false
          ∨ d.cols.contains "discount_value" = false) →
        heur4 d = .ok 0 := by
  constructor
  · intro o l rf p t d now r h
    rcases evaluate_ok_elim h with ⟨a, A, -, hA, rfl⟩
    rcases computeAggs_ok hA with ⟨-, -, -, -, hq, -, -⟩
    rw [hq, except_map_ok]
    rfl
  · intro d hd
    unfold heur4
    split_ifs with h1 h2
    · rfl
    · rfl
    · exfalso
      simp at h2
      rcases hd with hd | hd | hd <;> simp at hd <;>
        first
          | exact hd h2.1.1
          | exact hd h2.1.2
          | exact hd h2.2

/-- C7 amended witness: the characterization at a concrete report and at a
concrete table missing a required column. -/
theorem C7_amended_coupon_abuse_whole_table_witness :
    (heur4 ⟨["coupon_code", "customer_id", "discount_value"],
        [[Cell.str "K", Cell.str "u", Cell.num 7]]⟩).map pyRound2
      = .ok (((reportOf (evaluate ⟨["order_ts"], [[Cell.num 7]]⟩ emptyTable emptyTable
          emptyTable emptyTable
          ⟨["coupon_code", "customer_id", "discount_value"],
            [[Cell.str "K", Cell.str "u", Cell.num 7]]⟩ 0)).signals.map
              (·.estimated_loss_usd)).getD 3 0)
    ∧ heur4 ⟨["coupon_code"], [[Cell.str "K"]]⟩ = .ok 0 := by
  constructor
  · have h : evaluate ⟨["order_ts"], [[Cell.num 7]]⟩ emptyTable emptyTable
        emptyTable emptyTable
        ⟨["coupon_code", "customer_id", "discount_value"],
          [[Cell.str "K", Cell.str "u", Cell.num 7]]⟩ 0
        = .ok (reportOf (evaluate ⟨["order_ts"], [[Cell.num 7]]⟩ emptyTable emptyTable
            emptyTable emptyTable
            ⟨["coupon_code", "customer_id", "discount_value"],
              [[Cell.str "K", Cell.str "u", Cell.num 7]]⟩ 0)) := by rfl
    exact C7_amended_coupon_abuse_whole_table.1 _ _ _ _ _ _ 0 _ h
  · exact C7_amended_coupon_abuse_whole_table.2 _ (Or.inr (Or.inl (by rfl)))

/-- C8: the refund-spike scenario — whenever the window slice of orders
sums `net_revenue` to 1000, the window slice of refunds sums
`refund_amount` to 600 and the baseline refund sum is 0 (no baseline
rows), the returned report's first signal estimates a 600-dollar loss at
severity high. -/
theorem C8_refund_spike_scenario
    (orders refunds : Table) (now anchor : ℚ) (r : Report)
    (hA : anchorOf (toDt orders "order_ts") (toDt refunds "refund_ts")
        (toDt emptyTable "payment_ts") = some anchor)
    (hnet : sumCol (sliceTable (toDt orders "order_ts") "order_ts"
        (anchor - 28*86400) anchor) "net_revenue" = .ok 1000)
    (hrw : sumCol (sliceTable (toDt refunds "refund_ts") "refund_ts"
        (anchor - 28*86400) anchor) "refund_amount" = .ok 600)
    (hrb : sumCol (sliceTable (toDt refunds "refund_ts") "refund_ts"
        (anchor - 112*86400) (anchor - 28*86400)) "refund_amount" = .ok 0)
    (h : evaluate orders emptyTable refunds emptyTable emptyTable emptyTable now
      = .ok r) :
    (r.signals.map (·.estimated_loss_usd)).head? = some 600
    ∧ (r.signals.map (·.severity)).head? = some "high" := by
  rcases evaluate_ok_elim h with ⟨a, A, han, hAgg, rfl⟩
  rw [hA] at han
  injection han with han2
  subst han2
  rcases computeAggs_ok hAgg with ⟨hn, hw, hb, -, -, -, -⟩
  rw [hnet] at hn
  rw [hrw] at hw
  rw [hrb] at hb
  injection hn with hn2
  injection hw with hw2
  injection hb with hb2
  have e1 : A.netW = 1000 := hn2.symm
  have e2 : A.refundW = 600 := hw2.symm
  have e3 : A.refundB = 0 := hb2.symm
  constructor
  · show some (pyRound2 (if safeDiv A.refundW A.netW > safeDiv A.refundB A.netB * (6/5)
        ∧ A.refundW ≥ 500 then max 0 (A.refundW - safeDiv A.refundB A.netB * A.netW)
        else 0)) = some 600
    rw [e1, e2, e3]
    simp only [safeDiv_zero_num]
    decide
  · show some (severity (if safeDiv A.refundW A.netW > safeDiv A.refundB A.netB * (6/5)
        ∧ A.refundW ≥ 500 then max 0 (A.refundW - safeDiv A.refundB A.netB * A.netW)
        else 0) A.netW) = some "high"
    rw [e1, e2, e3]
    simp only [safeDiv_zero_num]
    decide

/-- C8 witness: the scenario realized by a concrete three-row orders table
(one row at the anchor, two window rows summing 1000) and a one-row
refunds table (600, inside the window). -/
theorem C8_refund_spike_scenario_witness :
    ((reportOf (evaluate
        ⟨["order_ts", "net_revenue"],
          [[Cell.num 8640000, Cell.num 0], [Cell.num 8553600, Cell.num 600],
            [Cell.num 8467200, Cell.num 400]]⟩
        emptyTable
        ⟨["refund_ts", "refund_amount"], [[Cell.num 8553600, Cell.num 600]]⟩
        emptyTable emptyTable emptyTable 0)).signals.map
          (·.estimated_loss_usd)).head? = some 600
    ∧ ((reportOf (evaluate
        ⟨["order_ts", "net_revenue"],
          [[Cell.num 8640000, Cell.num 0], [Cell.num 8553600, Cell.num 600],
            [Cell.num 8467200, Cell.num 400]]⟩
        emptyTable
        ⟨["refund_ts", "refund_amount"], [[Cell.num 8553600, Cell.num 600]]⟩
        emptyTable emptyTable emptyTable 0)).signals.map
          (·.severity)).head? = some "high" := by
  have h : evaluate
      ⟨["order_ts", "net_revenue"],
        [[Cell.num 8640000, Cell.num 0], [Cell.num 8553600, Cell.num 600],
          [Cell.num 8467200, Cell.num 400]]⟩
      emptyTable
      ⟨["refund_ts", "refund_amount"], [[Cell.num 8553600, Cell.num 600]]⟩
      emptyTable emptyTable emptyTable 0
      = .ok (reportOf (evaluate
          ⟨["order_ts", "net_revenue"],
            [[Cell.num 8640000, Cell.num 0], [Cell.num 8553600, Cell.num 600],
              [Cell.num 8467200, Cell.num 400]]⟩
          emptyTable
          ⟨["refund_ts", "refund_amount"], [[Cell.num 8553600, Cell.num 600]]⟩
          emptyTable emptyTable emptyTable 0)) := by rfl
  exact C8_refund_spike_scenario _ _ 0 8640000 _ (by rfl) (by rfl) (by rfl) (by rfl) h

/-- C3 counterexample: heuristic 6 does not clamp — a window failed payment
with `amount = -100` makes `failed_payment_recovery` report the negative
loss `-100`, refuting the claim that negative raw quantities are clamped to
0 before reporting. -/
theorem C3_negative_loss_reported :
    (evaluate emptyTable emptyTable emptyTable
        ⟨["payment_ts", "status", "amount"],
          [[Cell.num 8640000, Cell.str "ok", Cell.num 0],
            [Cell.num 8553600, Cell.str "failed", Cell.num (-100)]]⟩
        emptyTable emptyTable 0).map
      (fun r => (r.signals.map (·.estimated_loss_usd)).getD 5 0) = .ok (-100)
    ∧ ((-100 : ℚ) < 0) :=
  ⟨by rfl, by norm_num⟩

/-- C3 amended: every reported `estimated_loss_usd` is non-negative
PROVIDED every monetary-column cell of the inputs is missing or a
non-negative number; heuristics 1, 3, 5, 8 and 9 clamp negatives via
`max(0, ...)` unconditionally, but heuristics 2, 4, 6, 7 and 10 pass raw
sums through unclamped. -/
theorem C3_amended_nonneg_for_clean_inputs
    (orders order_lines refunds payments tickets discounts : Table) (now : ℚ)
    (r : Report)
    (ho : orders.monClean = true) (hrf : refunds.monClean = true)
    (hp : payments.monClean = true) (hd : discounts.monClean = true)
    (h : evaluate orders order_lines refunds payments tickets discounts now = .ok r) :
    ∀ s ∈ r.signals, 0 ≤ s.estimated_loss_usd := by
  rcases evaluate_ok_elim h with ⟨a, A, -, hA, rfl⟩
  rcases computeAggs_ok hA with
    ⟨hnet, -, -, hl2, hl4, ⟨fw, hfw, hfa⟩, ⟨dw, hdw, hda⟩⟩
  have hcleanNet : ∀ cell ∈ (sliceTable (toDt orders "order_ts") "order_ts"
      (a - 28*86400) a).colD "net_revenue", cellClean cell = true := by
    intro cell hm
    have hm2 := sliceTable_colD_subset hm
    rw [toDt_colD_ne orders (by decide)] at hm2
    exact monClean_cell ho (by decide) hm2
  have hcleanRW : ∀ cell ∈ (sliceTable (toDt refunds "refund_ts") "refund_ts"
      (a - 28*86400) a).colD "refund_amount", cellClean cell = true := by
    intro cell hm
    have hm2 := sliceTable_colD_subset hm
    rw [toDt_colD_ne refunds (by decide)] at hm2
    exact monClean_cell hrf (by decide) hm2
  have hnetNN : 0 ≤ A.netW := sumCol_clean hcleanNet hnet
  have hl2NN : 0 ≤ A.loss2raw := heur2_clean hcleanRW hl2
  have hl4NN : 0 ≤ A.loss4raw :=
    heur4_clean (fun cell hm => monClean_cell hd (by decide) hm) hl4
  have hfaNN : 0 ≤ A.failAmtW := by
    rcases hfa with h0 | hsum
    · rw [h0]
    · apply sumCol_clean _ hsum
      intro cell hm
      have hm2 := statusFilter_ok_colD_subset hfw hm
      have hm3 := sliceTable_colD_subset hm2
      rw [toDt_colD_ne payments (by decide)] at hm3
      exact monClean_cell hp (by decide) hm3
  have hdaNN : 0 ≤ A.dispAmtW := by
    apply sumCol_clean _ hda
    intro cell hm
    have hm2 := statusFilter_ok_colD_subset hdw hm
    have hm3 := sliceTable_colD_subset hm2
    rw [toDt_colD_ne payments (by decide)] at hm3
    exact monClean_cell hp (by decide) hm3
  exact mkSignals_loss_nonneg hl2NN hl4NN hfaNN hdaNN hnetNN

/-- C3 amended witness: a clean concrete input (a positive failed payment
inside the window) whose sixth signal reports a non-negative loss. -/
theorem C3_amended_nonneg_for_clean_inputs_witness :
    0 ≤ ((reportOf (evaluate emptyTable emptyTable emptyTable
        ⟨["payment_ts", "status", "amount"],
          [[Cell.num 8640000, Cell.str "ok", Cell.num 0],
            [Cell.num 8553600, Cell.str "failed", Cell.num 50]]⟩
        emptyTable emptyTable 0)).signals.getD 5
          ⟨"", 0, "", 0, "", []⟩).estimated_loss_usd := by
  have h : evaluate emptyTable emptyTable emptyTable
      ⟨["payment_ts", "status", "amount"],
        [[Cell.num 8640000, Cell.str "ok", Cell.num 0],
          [Cell.num 8553600, Cell.str "failed", Cell.num 50]]⟩
      emptyTable emptyTable 0
      = .ok (reportOf (evaluate emptyTable emptyTable emptyTable
          ⟨["payment_ts", "status", "amount"],
            [[Cell.num 8640000, Cell.str "ok", Cell.num 0],
              [Cell.num 8553600, Cell.str "failed", Cell.num 50]]⟩
          emptyTable emptyTable 0)) := by rfl
  exact C3_amended_nonneg_for_clean_inputs _ _ _ _ _ _ 0 _ (by rfl) (by rfl)
    (by decide) (by rfl) h _ (by decide)
